import Mathlib

/-!
The schema collector and the SQL generator of go_sql_schema: a shallow
embedding of `main.go`.

* Go `string` values are Lean `String`s (sequences of Unicode code points; Go
  decodes an invalid UTF-8 byte as U+FFFD, which is neither white space nor a
  comma).
* The three `map[string]bool` variables only ever store `true` and are only
  queried for key presence, so each is the list of its keys.
* The three nested `for` loops of `main` are one step function on an explicit
  state: the field `phase` records which `ReadString` call the program is
  blocked on, the other fields are the local variables of `main`.
* Standard input is the list of lines still to be delivered, one line per
  `ReadString` call (as a terminal delivers them); on the empty list
  `ReadString` returns the empty string together with `io.EOF`, and `main`
  discards that error.
* Console output (prompts, colours, progress trace) is not modelled, except
  that a rejected column line carries the error printed for it.
* `strings.ToUpper` and the title caser `cases.Title(language.Und)` are
  parameters of the generator; `asciiToUpper` is the effect of the first on
  ASCII text, `asciiTitle` the effect of the second on a word of ASCII letters.
-/

namespace GoSqlSchema

/-! ## Data model (`main.go`, lines 16-35) -/

/-- Go `type Column struct`; the field `Type` is spelled `Typ` (`Type` is a
Lean keyword). -/
structure Column where
  Typ : String
  Name : String
  Length : String
  Null : String
  Key : String
  AutoInc : Bool
  GoType : String
  JsonTag : String
  deriving DecidableEq

/-- Go `type Table struct`. -/
structure Table where
  Name : String
  Columns : List Column
  deriving DecidableEq

/-- Go `type Database struct`. -/
structure Database where
  Name : String
  Tables : List Table
  deriving DecidableEq

/-! ## Library functions used by `main` -/

/-- Go `unicode.IsSpace`: the Latin-1 space characters and the code points with
the Unicode White_Space property. -/
def isSpace (r : Char) : Bool :=
  let n := r.toNat
  n = 0x09 || n = 0x0A || n = 0x0B || n = 0x0C || n = 0x0D || n = 0x20 ||
  n = 0x85 || n = 0xA0 || n = 0x1680 || (0x2000 ≤ n && n ≤ 0x200A) ||
  n = 0x2028 || n = 0x2029 || n = 0x202F || n = 0x205F || n = 0x3000

/-- The separator predicate passed to `strings.FieldsFunc` (lines 114-116). -/
def isSep (r : Char) : Bool :=
  isSpace r || r = ','

/-- Drop the trailing characters that satisfy `p`. -/
def dropRightWhile (p : Char → Bool) (l : List Char) : List Char :=
  ((l.reverse).dropWhile p).reverse

/-- Go `strings.TrimSpace`: remove all leading and trailing white space. -/
def trimSpace (s : String) : String :=
  String.mk (dropRightWhile isSpace (s.data.dropWhile isSpace))

/-- The scanning loop of `strings.FieldsFunc`: `cur` is the field being read
(empty when the scan is between fields). -/
def fieldsAux (f : Char → Bool) : List Char → List Char → List (List Char)
  | [], cur => if cur.isEmpty then [] else [cur]
  | c :: cs, cur =>
    if f c then
      if cur.isEmpty then fieldsAux f cs [] else cur :: fieldsAux f cs []
    else fieldsAux f cs (cur ++ [c])

/-- Go `strings.FieldsFunc`: split at each run of code points satisfying `f`;
no field is empty. -/
def fieldsFunc (f : Char → Bool) (s : String) : List String :=
  (fieldsAux f s.data []).map String.mk

/-- Go `strconv.ParseBool`: `none` stands for a non-nil error (the boolean
returned with an error is `false`). -/
def parseBool (str : String) : Option Bool :=
  if str = "1" ∨ str = "t" ∨ str = "T" ∨ str = "TRUE" ∨ str = "true" ∨ str = "True" then
    some true
  else if str = "0" ∨ str = "f" ∨ str = "F" ∨ str = "FALSE" ∨ str = "false" ∨ str = "False" then
    some false
  else none

/-- Key presence in a `map[string]bool`, as in `_, ok := m[k]`. -/
def hasKey (m : List String) (k : String) : Bool :=
  m.contains k

/-- The inner map `tableMap[d]`; a missing key gives the nil (empty) map. -/
def tableMapGet (tableMap : List (String × List String)) (d : String) : List String :=
  (tableMap.lookup d).getD []

/-- The assignment `tableMap[d] = v`. -/
def tableMapSet (tableMap : List (String × List String)) (d : String) (v : List String) :
    List (String × List String) :=
  (d, v) :: tableMap.filter (fun e => e.1 ≠ d)

/-! ## The column loop body (`main.go`, lines 95-178) -/

/-- The `switch colType` of lines 153-167. -/
def goTypeOf (colType : String) : String :=
  if colType = "INT" ∨ colType = "INTEGER" ∨ colType = "SMALLINT" ∨ colType = "BIGINT" then
    "int"
  else if colType = "VARCHAR" ∨ colType = "TEXT" ∨ colType = "CHAR" ∨ colType = "LONGTEXT" then
    "string"
  else if colType = "DATE" ∨ colType = "DATETIME" ∨ colType = "TIMESTAMP" ∨ colType = "TIME" then
    "time.Time"
  else if colType = "BOOLEAN" ∨ colType = "BOOL" then
    "bool"
  else if colType = "FLOAT" ∨ colType = "DOUBLE" ∨ colType = "REAL" then
    "float64"
  else "interface\x7b\x7d"

/-- The three `red.Println` rejections of the column loop. -/
inductive ColumnError where
  | insufficient
  | duplicate
  | badAutoInc
  deriving DecidableEq

/-- How one iteration of the column loop ends: `break`, `continue` after an
error message (with the `columnMap` at that point), or the `append` of line
169 (with the `columnMap` at that point). -/
inductive ColumnOutcome where
  | exit
  | rejected (err : ColumnError) (columnMap : List String)
  | accepted (col : Column) (columnMap : List String)
  deriving DecidableEq

/-- Lines 123-178: what the loop body does with the tokens of a line. -/
def columnOfParts (columnMap : List String) (parts : List String) : ColumnOutcome :=
  if parts.length < 4 then
    ColumnOutcome.rejected ColumnError.insufficient columnMap
  else
    let colName := trimSpace (parts.getD 0 "")
    let colType := trimSpace (parts.getD 1 "")
    if hasKey columnMap colName then
      ColumnOutcome.rejected ColumnError.duplicate columnMap
    else
      let columnMap := colName :: columnMap
      let colLength := trimSpace (parts.getD 2 "")
      let colLength := if colLength = "null" then "" else colLength
      let colNull := trimSpace (parts.getD 3 "")
      let colKey := if parts.length ≥ 5 then trimSpace (parts.getD 4 "") else ""
      let autoInc := if parts.length ≥ 6 then trimSpace (parts.getD 5 "") else "false"
      let err := parseBool autoInc
      let autoIncrement := err.getD false
      if err = none ∧ autoInc ≠ "" then
        ColumnOutcome.rejected ColumnError.badAutoInc columnMap
      else
        ColumnOutcome.accepted
          { Typ := colType, Name := colName, Length := colLength, Null := colNull,
            Key := colKey, AutoInc := autoIncrement, GoType := goTypeOf colType,
            JsonTag := colName }
          columnMap

/-- Lines 108-178: one iteration of the column loop on the line just read. -/
def columnBody (columnMap : List String) (line : String) : ColumnOutcome :=
  let line := trimSpace line
  if line = ".exit" then ColumnOutcome.exit
  else columnOfParts columnMap (fieldsFunc isSep line)

/-! ## The collector (`main.go`, lines 37-186) -/

/-- The `ReadString` call on which `main` is blocked: the database prompt (line
54), the table prompt (line 77), the column prompt (line 108); `done` is the
call of `generateFiles` (line 186). -/
inductive Phase where
  | database
  | table
  | column
  | done
  deriving DecidableEq

/-- The local variables of `main`. `databaseName` and `db` are meaningful at the
table and column prompts, `tableName`, `tableColumns`, `columnMap` and `i` at
the column prompt. -/
structure State where
  phase : Phase
  databases : List Database
  databaseMap : List String
  tableMap : List (String × List String)
  databaseName : String
  db : Database
  tableName : String
  tableColumns : List Column
  columnMap : List String
  i : Nat
  deriving DecidableEq

/-- The state at the first database prompt (lines 38-40). -/
def init : State :=
  { phase := Phase.database, databases := [], databaseMap := [], tableMap := [],
    databaseName := "", db := { Name := "", Tables := [] }, tableName := "",
    tableColumns := [], columnMap := [], i := 0 }

/-- Lines 54-71: the database prompt receives `input`. -/
def stepDatabase (s : State) (input : String) : State :=
  let databaseName := trimSpace input
  if databaseName = ".exit" then
    { s with phase := Phase.done }
  else if hasKey s.databaseMap databaseName then
    s
  else
    { s with
      databaseMap := databaseName :: s.databaseMap
      databaseName := databaseName
      db := { Name := databaseName, Tables := [] }
      tableMap := tableMapSet s.tableMap databaseName []
      phase := Phase.table }

/-- Lines 77-93 and, on `.exit`, line 183: the table prompt receives `input`. -/
def stepTable (s : State) (input : String) : State :=
  let tableName := trimSpace input
  if tableName = ".exit" then
    { s with databases := s.databases ++ [s.db], phase := Phase.database }
  else if hasKey (tableMapGet s.tableMap s.databaseName) tableName then
    s
  else
    { s with
      tableMap := tableMapSet s.tableMap s.databaseName
        (tableName :: tableMapGet s.tableMap s.databaseName)
      tableName := tableName
      tableColumns := []
      columnMap := []
      i := 0
      phase := Phase.column }

/-- Lines 99-178 and, on `.exit`, line 181: the column prompt receives `input`. -/
def stepColumn (s : State) (input : String) : State :=
  match columnBody s.columnMap input with
  | ColumnOutcome.exit =>
    { s with
      i := s.i + 1
      db := { s.db with
        Tables := s.db.Tables ++ [{ Name := s.tableName, Columns := s.tableColumns }] }
      phase := Phase.table }
  | ColumnOutcome.rejected _ columnMap =>
    { s with i := s.i + 1, columnMap := columnMap }
  | ColumnOutcome.accepted col columnMap =>
    { s with i := s.i + 1, columnMap := columnMap, tableColumns := s.tableColumns ++ [col] }

/-- One `ReadString` call of `main` and the code up to the next one. -/
def step (s : State) (input : String) : State :=
  match s.phase with
  | Phase.database => stepDatabase s input
  | Phase.table => stepTable s input
  | Phase.column => stepColumn s input
  | Phase.done => s

/-- The call `reader.ReadString('\n')` with the error discarded: the next line
of standard input, or the empty string at end of input. -/
def readString : List String → String × List String
  | [] => ("", [])
  | line :: rest => (line, rest)

/-- The loops of `main` from state `s`, for at most `fuel` reads: the database
list handed to `generateFiles`, or `none` when `generateFiles` is not reached
within `fuel` reads. -/
def mainLoop : Nat → State → List String → Option (List Database)
  | 0, s, _ => if s.phase = Phase.done then some s.databases else none
  | fuel + 1, s, stdin =>
    if s.phase = Phase.done then some s.databases
    else mainLoop fuel (step s (readString stdin).1) (readString stdin).2

/-- The collector part of `main` on standard input `stdin`. -/
def main (fuel : Nat) (stdin : List String) : Option (List Database) :=
  mainLoop fuel init stdin

/-- The states the program passes through: those reached from `init` by reading
some lines. -/
def Reachable (s : State) : Prop :=
  ∃ inputs : List String, inputs.foldl step init = s

/-! ## The SQL generator (`generateFiles`, lines 224-267) -/

/-- Lines 232-259: the text of the `Sprintf` written for one column. -/
def columnClause (toUpper : String → String) (col : Column) : String :=
  let nullConstraint := if col.Null = "null" then " NULL" else " NOT NULL"
  let keyConstraint :=
    if col.Key = "PRIMARY" then
      if col.AutoInc then " PRIMARY KEY" ++ " AUTO_INCREMENT" else " PRIMARY KEY"
    else if col.Key = "UNIQUE" then " UNIQUE"
    else if col.Key = "FOREIGN" then " FOREIGN KEY"
    else ""
  let length := if col.Length ≠ "" then "(" ++ col.Length ++ ")" else ""
  "\t" ++ col.Name ++ " " ++ toUpper col.Typ ++ length ++ nullConstraint ++ keyConstraint

/-- The loop of lines 231-264 from index `j` on: `n` is `len(table.Columns)`,
`out` the text written to `tables.sql` so far. The comparison is on Go `int`s,
so `n - 1` is `-1` for `n = 0`. -/
def writeColumns (toUpper : String → String) (n : Nat) : Nat → List Column → String → String
  | _, [], out => out
  | j, col :: cols, out =>
    let out := out ++ columnClause toUpper col
    let out := if (j : Int) < (n : Int) - 1 then out ++ "," else out
    writeColumns toUpper n (j + 1) cols (out ++ "\n")

/-- Lines 230-265: the writes for one table. -/
def writeTable (toUpper : String → String) (out : String) (table : Table) : String :=
  let out := out ++ ("CREATE TABLE " ++ table.Name ++ " (\n")
  let out := writeColumns toUpper table.Columns.length 0 table.Columns out
  out ++ ");\n\n"

/-- Lines 225-266: the writes for one database. -/
def writeDatabase (toUpper : String → String) (out : String) (db : Database) : String :=
  let out := out ++ ("CREATE DATABASE IF NOT EXISTS " ++ db.Name ++ ";\n")
  let out := out ++ ("USE " ++ db.Name ++ ";\n\n")
  db.Tables.foldl (writeTable toUpper) out

/-- Lines 224-267: the content of `./out/tables.sql` after `generateFiles`, when
the directory and both files could be created. -/
def generateSQL (toUpper : String → String) (databases : List Database) : String :=
  databases.foldl (writeDatabase toUpper) ""

/-- The effect of `strings.ToUpper` on ASCII text. -/
def asciiToUpper (s : String) : String :=
  String.mk (s.data.map Char.toUpper)

/-! ## Specification-side definitions

The definitions below follow the words of the specification; the theorems
compare them with the definitions above, which follow the source. -/

/-- Concatenation of a list of texts, in list order. -/
def concat : List String → String
  | [] => ""
  | s :: rest => s ++ concat rest

/-- The type-vocabulary table of the specification (section 4.1), with the Go
spelling of each target type. -/
def typeVocabulary : List (List String × String) :=
  [ (["INT", "INTEGER", "SMALLINT", "BIGINT"], "int"),
    (["VARCHAR", "TEXT", "CHAR", "LONGTEXT"], "string"),
    (["DATE", "DATETIME", "TIMESTAMP", "TIME"], "time.Time"),
    (["BOOLEAN", "BOOL"], "bool"),
    (["FLOAT", "DOUBLE", "REAL"], "float64") ]

/-- The target type of the specification: the row of `typeVocabulary` that lists
the declared type (case-sensitive exact match), the generic type when no row
does. -/
def specTargetType (declared : String) : String :=
  match typeVocabulary.find? (fun row => row.1.contains declared) with
  | some row => row.2
  | none => "interface\x7b\x7d"

/-- The key clause of the specification (section 4.2, item 5). -/
def specKeyClause (key : String) (autoInc : Bool) : String :=
  if key = "PRIMARY" then " PRIMARY KEY" ++ (if autoInc then " AUTO_INCREMENT" else "")
  else if key = "UNIQUE" then " UNIQUE"
  else if key = "FOREIGN" then " FOREIGN KEY"
  else ""

/-- The column clause of the specification: a tab, then items 1-5 of section
4.2 in their order. -/
def specColumnClause (toUpper : String → String) (col : Column) : String :=
  "\t" ++ (col.Name ++ (" " ++ (toUpper col.Typ ++
    ((if col.Length = "" then "" else "(" ++ col.Length ++ ")") ++
      ((if col.Null = "null" then " NULL" else " NOT NULL") ++
        specKeyClause col.Key col.AutoInc)))))

/-- The column clauses of one table: each ended by a newline, with a comma
after every clause except the last. -/
def specColumnLines (toUpper : String → String) : List Column → String
  | [] => ""
  | [col] => specColumnClause toUpper col ++ "\n"
  | col :: next :: rest =>
    specColumnClause toUpper col ++ "," ++ "\n" ++ specColumnLines toUpper (next :: rest)

/-- The `CREATE TABLE` statement of one table. -/
def specTableBlock (toUpper : String → String) (table : Table) : String :=
  "CREATE TABLE " ++ table.Name ++ " (\n" ++ specColumnLines toUpper table.Columns ++ ");\n\n"

/-- The block of one database: the `CREATE DATABASE` and `USE` statements, then
its tables in table order. -/
def specDatabaseBlock (toUpper : String → String) (db : Database) : String :=
  "CREATE DATABASE IF NOT EXISTS " ++ db.Name ++ ";\nUSE " ++ db.Name ++ ";\n\n" ++
    concat (db.Tables.map (specTableBlock toUpper))

/-- The SQL text of the specification: one block per database, in list order. -/
def specSQL (toUpper : String → String) (databases : List Database) : String :=
  concat (databases.map (specDatabaseBlock toUpper))

/-! ## The invariant of the collector -/

/-- A name taken at the database or table prompt: not the sentinel, and with no
white space at either end. -/
def PromptName (name : String) : Prop :=
  name ≠ ".exit" ∧ trimSpace name = name

/-- What holds of the tables appended to a database so far. -/
structure TablesOK (tables : List Table) : Prop where
  nodup : (tables.map Table.Name).Nodup
  names : ∀ t ∈ tables, PromptName t.Name
  columns : ∀ t ∈ tables, (t.Columns.map Column.Name).Nodup

/-- What holds of the database being collected, at the table and column
prompts. -/
structure CurrentOK (s : State) : Prop where
  name : s.db.Name = s.databaseName
  fresh : s.databaseName ∉ s.databases.map Database.Name
  prompt : PromptName s.databaseName
  tables : TablesOK s.db.Tables
  tableMap : ∀ n, n ∈ tableMapGet s.tableMap s.databaseName ↔
    (n ∈ s.db.Tables.map Table.Name ∨ (s.phase = Phase.column ∧ n = s.tableName))

/-- What holds of the table being collected, at the column prompt. -/
structure ColumnsOK (s : State) : Prop where
  fresh : s.tableName ∉ s.db.Tables.map Table.Name
  prompt : PromptName s.tableName
  nodup : (s.tableColumns.map Column.Name).Nodup
  used : ∀ c ∈ s.tableColumns, c.Name ∈ s.columnMap

/-- The invariant of the loops of `main`. -/
structure Inv (s : State) : Prop where
  nodup : (s.databases.map Database.Name).Nodup
  names : ∀ d ∈ s.databases, PromptName d.Name
  databaseMap : ∀ n, n ∈ s.databaseMap ↔
    (n ∈ s.databases.map Database.Name ∨
      ((s.phase = Phase.table ∨ s.phase = Phase.column) ∧ n = s.databaseName))
  tables : ∀ d ∈ s.databases, TablesOK d.Tables
  current : s.phase = Phase.table ∨ s.phase = Phase.column → CurrentOK s
  column : s.phase = Phase.column → ColumnsOK s

/-! ## Names for the intermediate values of the column loop body -/

/-- The value of `autoInc` at line 147: the sixth token, or `"false"`. -/
def autoIncOf (parts : List String) : String :=
  if parts.length ≥ 6 then trimSpace (parts.getD 5 "") else "false"

/-- The `Column` literal of lines 169-178, from the tokens. -/
def columnFields (parts : List String) : Column :=
  { Typ := trimSpace (parts.getD 1 "")
    Name := trimSpace (parts.getD 0 "")
    Length := if trimSpace (parts.getD 2 "") = "null" then "" else trimSpace (parts.getD 2 "")
    Null := trimSpace (parts.getD 3 "")
    Key := if parts.length ≥ 5 then trimSpace (parts.getD 4 "") else ""
    AutoInc := (parseBool (autoIncOf parts)).getD false
    GoType := goTypeOf (trimSpace (parts.getD 1 ""))
    JsonTag := trimSpace (parts.getD 0 "") }

/-! ## The struct generator (`generateFiles`, lines 204-215) -/

/-- Line 204: the header written to `structs.go`. -/
def structHeader : String :=
  "package structs\n\nimport (\n\t\"time\"\n)\n\n"

/-- Line 211: the write for one column; `title` is `caser.String`, the title
caser of `cases.Title(language.Und)`. -/
def writeField (title : String → String) (out : String) (col : Column) : String :=
  out ++ ("\t" ++ title col.Name ++ "\t" ++ col.GoType ++ " \x60json:\"" ++ col.JsonTag ++
    "\"\x60\n")

/-- Lines 209-213: the writes for one table. -/
def writeStruct (title : String → String) (out : String) (table : Table) : String :=
  let out := out ++ ("type " ++ title table.Name ++ " struct \x7b\n")
  let out := table.Columns.foldl (writeField title) out
  out ++ "\x7d\n\n"

/-- Lines 208-214: the writes for the tables of one database. -/
def writeStructs (title : String → String) (out : String) (db : Database) : String :=
  db.Tables.foldl (writeStruct title) out

/-- Lines 204-215: the content of `./out/structs.go` after `generateFiles`, when
the directory and the file could be created. -/
def generateStructs (title : String → String) (databases : List Database) : String :=
  databases.foldl (writeStructs title) structHeader

/-- The type names of the declarations written by lines 207-215, in the order
written: the `caser.String(table.Name)` argument of each `Sprintf` of line
209. -/
def declaredTypeNames (title : String → String) (databases : List Database) : List String :=
  databases.foldl
    (fun names db => db.Tables.foldl (fun names table => names ++ [title table.Name]) names) []

/-- The effect of the title caser on a single word of ASCII letters: the first
letter in upper case, the others in lower case. -/
def asciiTitle (s : String) : String :=
  match s.data with
  | [] => ""
  | c :: cs => String.mk (c.toUpper :: cs.map Char.toLower)

/-- Lines 109 and 114-116: the tokens of a line read at the column prompt. -/
def tokensOf (line : String) : List String :=
  fieldsFunc isSep (trimSpace line)

/-- The `Column` appended for an accepted line. -/
def columnOfLine (line : String) : Column :=
  columnFields (tokensOf line)

/-! ## Specification-side definitions for the struct text and the column prompt -/

/-- The field line of one column: the title-cased column name, the derived
target type, and the raw column name as the json annotation. -/
def specFieldLine (title : String → String) (col : Column) : String :=
  "\t" ++ title col.Name ++ "\t" ++ col.GoType ++ " \x60json:\"" ++ col.Name ++ "\"\x60\n"

/-- The declaration of one table: one field line per column, in column order. -/
def specStructDecl (title : String → String) (table : Table) : String :=
  "type " ++ title table.Name ++ " struct \x7b\n" ++
    concat (table.Columns.map (specFieldLine title)) ++ "\x7d\n\n"

/-- The tables of a database list, in database-then-table order. -/
def allTables : List Database → List Table
  | [] => []
  | db :: rest => db.Tables ++ allTables rest

/-- The struct text of the specification: the fixed header, then one declaration
per table in database-then-table order. -/
def specStructs (title : String → String) (databases : List Database) : String :=
  structHeader ++ concat ((allTables databases).map (specStructDecl title))

/-- The strings that `strconv.ParseBool` accepts. -/
def boolTokens : List String :=
  ["1", "t", "T", "TRUE", "true", "True", "0", "f", "F", "FALSE", "false", "False"]

/-- A well-formed column line: not the sentinel, at least four tokens, and a
boolean as sixth token when there is one. -/
def WellFormedLine (line : String) : Prop :=
  trimSpace line ≠ ".exit" ∧ 4 ≤ (tokensOf line).length ∧
    ((tokensOf line).length < 6 ∨ (tokensOf line).getD 5 "" ∈ boolTokens)

instance (line : String) : Decidable (WellFormedLine line) := by
  unfold WellFormedLine
  infer_instance

/-- The column name entered on a line: its first token. -/
def nameOfLine (line : String) : String :=
  (tokensOf line).getD 0 ""

/-! ## The invariant of the collected columns -/

/-- What holds of every column appended by the column loop. -/
structure ColumnOK (c : Column) : Prop where
  nonempty : c.Name ≠ ""
  noSep : ∀ ch ∈ c.Name.data, isSep ch = false
  jsonTag : c.JsonTag = c.Name
  goType : c.GoType = goTypeOf c.Typ

/-- The columns of the databases collected so far, of the current database and
of the current table all satisfy `ColumnOK`. -/
structure ColumnsInv (s : State) : Prop where
  databases : ∀ d ∈ s.databases, ∀ t ∈ d.Tables, ∀ c ∈ t.Columns, ColumnOK c
  current : ∀ t ∈ s.db.Tables, ∀ c ∈ t.Columns, ColumnOK c
  columns : ∀ c ∈ s.tableColumns, ColumnOK c

/-! ## Facts about the library functions -/

theorem dropWhile_self_of_head {p : Char → Bool} :
    ∀ l : List Char, (∀ c, l.head? = some c → p c = false) → l.dropWhile p = l
  | [], _ => rfl
  | c :: cs, h => by
    have hc : p c = false := h c rfl
    simp [List.dropWhile, hc]

theorem dropRightWhile_self_of_getLast {p : Char → Bool} (l : List Char)
    (h : ∀ c, l.getLast? = some c → p c = false) : dropRightWhile p l = l := by
  unfold dropRightWhile
  rw [dropWhile_self_of_head, List.reverse_reverse]
  intro c hc
  apply h
  simpa [List.head?_reverse] using hc

/-- A string with no white space in it is left alone by `strings.TrimSpace`. -/
theorem trimSpace_of_no_space (t : String) (h : ∀ c ∈ t.data, isSpace c = false) :
    trimSpace t = t := by
  unfold trimSpace
  have h1 : t.data.dropWhile isSpace = t.data :=
    dropWhile_self_of_head _ (fun c hc => h c (List.mem_of_mem_head? hc))
  rw [h1, dropRightWhile_self_of_getLast]
  intro c hc
  exact h c (List.mem_of_getLast?_eq_some hc)

theorem fieldsAux_spec (f : Char → Bool) :
    ∀ (cs cur : List Char), (∀ c ∈ cur, f c = false) →
      ∀ t ∈ fieldsAux f cs cur, t ≠ [] ∧ ∀ c ∈ t, f c = false
  | [], cur, hcur, t, ht => by
    unfold fieldsAux at ht
    by_cases he : cur = []
    · simp [he] at ht
    · have : cur.isEmpty = false := by simpa [List.isEmpty_iff] using he
      simp [this] at ht
      subst ht
      exact ⟨he, hcur⟩
  | c :: cs, cur, hcur, t, ht => by
    unfold fieldsAux at ht
    by_cases hf : f c = true
    · simp only [hf, if_true] at ht
      by_cases he : cur = []
      · simp [he] at ht
        exact fieldsAux_spec f cs [] (by simp) t ht
      · have : cur.isEmpty = false := by simpa [List.isEmpty_iff] using he
        simp [this] at ht
        rcases ht with ht | ht
        · subst ht
          exact ⟨he, hcur⟩
        · exact fieldsAux_spec f cs [] (by simp) t ht
    · simp only [hf] at ht
      have hf' : f c = false := by simpa using hf
      refine fieldsAux_spec f cs (cur ++ [c]) ?_ t ht
      intro x hx
      rcases List.mem_append.mp hx with hx | hx
      · exact hcur x hx
      · simp at hx
        subst hx
        exact hf'

/-- Every token of `strings.FieldsFunc` is non-empty and free of separators. -/
theorem fieldsFunc_token (f : Char → Bool) (s t : String) (ht : t ∈ fieldsFunc f s) :
    t ≠ "" ∧ ∀ c ∈ t.data, f c = false := by
  unfold fieldsFunc at ht
  rcases List.mem_map.mp ht with ⟨l, hl, rfl⟩
  have h := fieldsAux_spec f s.data [] (by simp) l hl
  refine ⟨?_, h.2⟩
  intro he
  apply h.1
  have := congrArg String.data he
  simpa using this

/-- A token of a column line is left alone by `strings.TrimSpace`. -/
theorem trimSpace_token (s t : String) (ht : t ∈ fieldsFunc isSep s) : trimSpace t = t := by
  apply trimSpace_of_no_space
  intro c hc
  have h := (fieldsFunc_token isSep s t ht).2 c hc
  unfold isSep at h
  simp only [Bool.or_eq_false_iff] at h
  exact h.1

theorem head?_dropWhile_false (p : Char → Bool) (l : List Char) (c : Char)
    (h : (l.dropWhile p).head? = some c) : p c = false := by
  have hn := List.head?_dropWhile_not p l
  rw [h] at hn
  exact hn

theorem dropRightWhile_initial (p : Char → Bool) (l : List Char) :
    dropRightWhile p l <+: l := by
  unfold dropRightWhile
  have h : l.reverse.dropWhile p <:+ l.reverse := List.dropWhile_suffix p
  have h2 := List.reverse_prefix.mpr h
  rwa [List.reverse_reverse] at h2

/-- Trimming twice is trimming once: `strings.TrimSpace` is idempotent. -/
theorem trimSpace_idem (s : String) : trimSpace (trimSpace s) = trimSpace s := by
  unfold trimSpace
  simp only
  have hl : ∀ c, (s.data.dropWhile isSpace).head? = some c → isSpace c = false :=
    fun c hc => head?_dropWhile_false _ _ _ hc
  generalize s.data.dropWhile isSpace = l at hl
  have h2 : dropRightWhile isSpace (dropRightWhile isSpace l) = dropRightWhile isSpace l := by
    apply dropRightWhile_self_of_getLast
    intro c hc
    unfold dropRightWhile at hc
    rw [List.getLast?_reverse] at hc
    exact head?_dropWhile_false _ _ _ hc
  have h1 : (dropRightWhile isSpace l).dropWhile isSpace = dropRightWhile isSpace l := by
    apply dropWhile_self_of_head
    intro c hc
    apply hl
    obtain ⟨t, ht⟩ := dropRightWhile_initial isSpace l
    rw [← ht]
    cases hr : dropRightWhile isSpace l with
    | nil => simp [hr] at hc
    | cons a r => simpa [hr] using hc
  rw [h1, h2]

theorem tableMapGet_set (tableMap : List (String × List String)) (d : String)
    (v : List String) : tableMapGet (tableMapSet tableMap d v) d = v := by
  simp [tableMapGet, tableMapSet, List.lookup]

theorem hasKey_eq_true (m : List String) (k : String) : hasKey m k = true ↔ k ∈ m := by
  simp [hasKey]

theorem hasKey_eq_false (m : List String) (k : String) : hasKey m k = false ↔ k ∉ m := by
  simp [hasKey]

/-! ## The column loop body -/

/-- The column loop body as a chain of its three guards. -/
theorem columnOfParts_eq (columnMap : List String) (parts : List String) :
    columnOfParts columnMap parts =
      if parts.length < 4 then ColumnOutcome.rejected ColumnError.insufficient columnMap
      else if hasKey columnMap (trimSpace (parts.getD 0 "")) = true then
        ColumnOutcome.rejected ColumnError.duplicate columnMap
      else if parseBool (autoIncOf parts) = none ∧ autoIncOf parts ≠ "" then
        ColumnOutcome.rejected ColumnError.badAutoInc (trimSpace (parts.getD 0 "") :: columnMap)
      else
        ColumnOutcome.accepted (columnFields parts) (trimSpace (parts.getD 0 "") :: columnMap) :=
  rfl

/-- An accepted line has a name that was not yet in `columnMap`, and puts it
there. -/
theorem columnOfParts_accepted {columnMap columnMap' : List String} {parts : List String}
    {col : Column} (h : columnOfParts columnMap parts = ColumnOutcome.accepted col columnMap') :
    4 ≤ parts.length ∧ col = columnFields parts ∧ col.Name ∉ columnMap ∧
      columnMap' = col.Name :: columnMap ∧
      ¬ (parseBool (autoIncOf parts) = none ∧ autoIncOf parts ≠ "") := by
  rw [columnOfParts_eq] at h
  split_ifs at h with h1 h2 h3
  simp only [ColumnOutcome.accepted.injEq] at h
  obtain ⟨hc, hm⟩ := h
  subst hc
  refine ⟨by omega, rfl, ?_, hm.symm, h3⟩
  simpa [hasKey, columnFields] using h2

/-- A rejected line leaves every name of `columnMap` in it. -/
theorem columnOfParts_rejected {columnMap columnMap' : List String} {parts : List String}
    {err : ColumnError}
    (h : columnOfParts columnMap parts = ColumnOutcome.rejected err columnMap') :
    ∀ n ∈ columnMap, n ∈ columnMap' := by
  rw [columnOfParts_eq] at h
  split_ifs at h with h1 h2 h3
  all_goals simp only [ColumnOutcome.rejected.injEq] at h
  all_goals intro n hn
  all_goals rw [← h.2]
  · exact hn
  · exact hn
  · exact List.mem_cons_of_mem _ hn

theorem columnOfParts_ne_exit (columnMap : List String) (parts : List String) :
    columnOfParts columnMap parts ≠ ColumnOutcome.exit := by
  rw [columnOfParts_eq]
  split_ifs <;> exact fun h => ColumnOutcome.noConfusion h

theorem columnBody_accepted {columnMap columnMap' : List String} {line : String}
    {col : Column} (h : columnBody columnMap line = ColumnOutcome.accepted col columnMap') :
    trimSpace line ≠ ".exit" ∧
      columnOfParts columnMap (fieldsFunc isSep (trimSpace line)) =
        ColumnOutcome.accepted col columnMap' := by
  unfold columnBody at h
  simp only at h
  split_ifs at h with h1
  exact ⟨h1, h⟩

theorem columnBody_rejected {columnMap columnMap' : List String} {line : String}
    {err : ColumnError} (h : columnBody columnMap line = ColumnOutcome.rejected err columnMap') :
    trimSpace line ≠ ".exit" ∧
      columnOfParts columnMap (fieldsFunc isSep (trimSpace line)) =
        ColumnOutcome.rejected err columnMap' := by
  unfold columnBody at h
  simp only at h
  split_ifs at h with h1
  exact ⟨h1, h⟩

theorem columnBody_exit {columnMap : List String} {line : String}
    (h : columnBody columnMap line = ColumnOutcome.exit) : trimSpace line = ".exit" := by
  unfold columnBody at h
  simp only at h
  split_ifs at h with h1
  · exact h1
  · exact absurd h (columnOfParts_ne_exit _ _)

/-! ## The invariant is kept by every step -/

theorem tablesOK_nil : TablesOK [] :=
  ⟨by simp, by simp, by simp⟩

theorem tablesOK_append {tables : List Table} {t : Table} (h : TablesOK tables)
    (hfresh : t.Name ∉ tables.map Table.Name) (hname : PromptName t.Name)
    (hcols : (t.Columns.map Column.Name).Nodup) : TablesOK (tables ++ [t]) := by
  refine ⟨?_, ?_, ?_⟩
  · rw [List.map_append, List.nodup_append]
    refine ⟨h.nodup, by simp, ?_⟩
    intro a ha hb
    simp only [List.map_cons, List.map_nil, List.mem_singleton] at hb
    subst hb
    exact hfresh ha
  · intro u hu
    rcases List.mem_append.mp hu with hu | hu
    · exact h.names u hu
    · simp only [List.mem_singleton] at hu
      subst hu
      exact hname
  · intro u hu
    rcases List.mem_append.mp hu with hu | hu
    · exact h.columns u hu
    · simp only [List.mem_singleton] at hu
      subst hu
      exact hcols

theorem inv_init : Inv init := by
  refine ⟨by simp [init], by simp [init], ?_, by simp [init], ?_, ?_⟩
  · intro n
    simp [init]
  · intro h
    simp [init] at h
  · intro h
    simp [init] at h

theorem stepDatabase_inv (s : State) (input : String) (hp : s.phase = Phase.database)
    (h : Inv s) : Inv (stepDatabase s input) := by
  unfold stepDatabase
  simp only
  split_ifs with h1 h2
  · refine ⟨h.nodup, h.names, ?_, h.tables, ?_, ?_⟩
    · intro n
      have := h.databaseMap n
      simp only [hp] at this
      simpa using this
    · intro hc
      simp at hc
    · intro hc
      simp at hc
  · exact h
  · have hfresh : trimSpace input ∉ s.databases.map Database.Name := by
      intro hmem
      apply h2
      rw [hasKey_eq_true]
      exact (h.databaseMap _).mpr (Or.inl hmem)
    refine ⟨h.nodup, h.names, ?_, h.tables, ?_, ?_⟩
    · intro n
      have hm : n ∈ s.databaseMap ↔ n ∈ s.databases.map Database.Name := by
        rw [h.databaseMap n, hp]
        simp
      dsimp only
      constructor
      · intro hn
        rcases List.mem_cons.mp hn with hn | hn
        · exact Or.inr ⟨Or.inl rfl, hn⟩
        · exact Or.inl (hm.mp hn)
      · rintro (hn | ⟨_, hn⟩)
        · exact List.mem_cons_of_mem _ (hm.mpr hn)
        · rw [hn]
          exact List.mem_cons_self _ _
    · intro _
      refine ⟨rfl, hfresh, ⟨h1, trimSpace_idem input⟩, tablesOK_nil, ?_⟩
      intro n
      simp [tableMapGet_set]
    · intro hc
      simp at hc

theorem stepTable_inv (s : State) (input : String) (hp : s.phase = Phase.table)
    (h : Inv s) : Inv (stepTable s input) := by
  have hcur := h.current (Or.inl hp)
  unfold stepTable
  simp only
  split_ifs with h1 h2
  · refine ⟨?_, ?_, ?_, ?_, ?_, ?_⟩
    · simp only [List.map_append, List.map_cons, List.map_nil]
      rw [List.nodup_append]
      refine ⟨h.nodup, by simp, ?_⟩
      intro a ha hb
      simp only [List.mem_singleton] at hb
      subst hb
      rw [hcur.name] at ha
      exact hcur.fresh ha
    · intro d hd
      rcases List.mem_append.mp hd with hd | hd
      · exact h.names d hd
      · simp only [List.mem_singleton] at hd
        subst hd
        rw [hcur.name]
        exact hcur.prompt
    · intro n
      have := h.databaseMap n
      simp only [hp] at this
      simp only [this, List.map_append, List.mem_append, List.map_cons, List.map_nil,
        List.mem_singleton, hcur.name]
      simp
    · intro d hd
      rcases List.mem_append.mp hd with hd | hd
      · exact h.tables d hd
      · simp only [List.mem_singleton] at hd
        subst hd
        exact hcur.tables
    · intro hc
      simp at hc
    · intro hc
      simp at hc
  · exact h
  · have hfresh : trimSpace input ∉ s.db.Tables.map Table.Name := by
      intro hmem
      apply h2
      rw [hasKey_eq_true]
      exact (hcur.tableMap _).mpr (Or.inl hmem)
    refine ⟨h.nodup, h.names, ?_, h.tables, ?_, ?_⟩
    · intro n
      have := h.databaseMap n
      simp only [hp] at this
      simp only [this]
      simp
    · intro _
      refine ⟨hcur.name, hcur.fresh, hcur.prompt, hcur.tables, ?_⟩
      intro n
      have hm : n ∈ tableMapGet s.tableMap s.databaseName ↔ n ∈ s.db.Tables.map Table.Name := by
        rw [hcur.tableMap n, hp]
        simp
      dsimp only
      rw [tableMapGet_set]
      constructor
      · intro hn
        rcases List.mem_cons.mp hn with hn | hn
        · exact Or.inr ⟨rfl, hn⟩
        · exact Or.inl (hm.mp hn)
      · rintro (hn | ⟨_, hn⟩)
        · exact List.mem_cons_of_mem _ (hm.mpr hn)
        · rw [hn]
          exact List.mem_cons_self _ _
    · intro _
      exact ⟨hfresh, ⟨h1, trimSpace_idem input⟩, by simp, by simp⟩

theorem stepColumn_inv (s : State) (input : String) (hp : s.phase = Phase.column)
    (h : Inv s) : Inv (stepColumn s input) := by
  have hcur := h.current (Or.inr hp)
  have hcol := h.column hp
  unfold stepColumn
  cases hb : columnBody s.columnMap input with
  | exit =>
    dsimp only
    refine ⟨h.nodup, h.names, ?_, h.tables, ?_, ?_⟩
    · intro n
      have := h.databaseMap n
      simp only [hp] at this
      simp only [this]
      simp
    · intro _
      refine ⟨hcur.name, hcur.fresh, hcur.prompt, ?_, ?_⟩
      · exact tablesOK_append hcur.tables hcol.fresh hcol.prompt hcol.nodup
      · intro n
        have hm := hcur.tableMap n
        simp only [hp, true_and] at hm
        dsimp only
        rw [hm]
        simp
    · intro hc
      simp at hc
  | rejected err columnMap =>
    dsimp only
    have hsub := columnOfParts_rejected (columnBody_rejected hb).2
    refine ⟨h.nodup, h.names, ?_, h.tables, ?_, ?_⟩
    · intro n
      have := h.databaseMap n
      simp only [hp] at this
      simpa [hp] using this
    · intro _
      refine ⟨hcur.name, hcur.fresh, hcur.prompt, hcur.tables, ?_⟩
      intro n
      have hm := hcur.tableMap n
      simpa [hp] using hm
    · intro _
      exact ⟨hcol.fresh, hcol.prompt, hcol.nodup, fun c hc => hsub _ (hcol.used c hc)⟩
  | accepted col columnMap =>
    dsimp only
    obtain ⟨_, _, hnew, hmap, _⟩ := columnOfParts_accepted (columnBody_accepted hb).2
    refine ⟨h.nodup, h.names, ?_, h.tables, ?_, ?_⟩
    · intro n
      have := h.databaseMap n
      simp only [hp] at this
      simpa [hp] using this
    · intro _
      refine ⟨hcur.name, hcur.fresh, hcur.prompt, hcur.tables, ?_⟩
      intro n
      have hm := hcur.tableMap n
      simpa [hp] using hm
    · intro _
      refine ⟨hcol.fresh, hcol.prompt, ?_, ?_⟩
      · rw [List.map_append, List.nodup_append]
        refine ⟨hcol.nodup, by simp, ?_⟩
        intro a ha hb'
        simp only [List.map_cons, List.map_nil, List.mem_singleton] at hb'
        subst hb'
        obtain ⟨c, hc, hcn⟩ := List.mem_map.mp ha
        apply hnew
        rw [← hcn]
        exact hcol.used c hc
      · intro c hc
        rw [hmap]
        rcases List.mem_append.mp hc with hc | hc
        · exact List.mem_cons_of_mem _ (hcol.used c hc)
        · simp only [List.mem_singleton] at hc
          subst hc
          exact List.mem_cons_self _ _

theorem step_inv (s : State) (input : String) (h : Inv s) : Inv (step s input) := by
  unfold step
  cases hp : s.phase with
  | database => exact stepDatabase_inv s input hp h
  | table => exact stepTable_inv s input hp h
  | column => exact stepColumn_inv s input hp h
  | done => exact h

theorem foldl_step_inv (inputs : List String) :
    ∀ s : State, Inv s → Inv (inputs.foldl step s) := by
  induction inputs with
  | nil => exact fun s h => h
  | cons input rest ih => exact fun s h => ih (step s input) (step_inv s input h)

theorem reachable_inv {s : State} (h : Reachable s) : Inv s := by
  obtain ⟨inputs, rfl⟩ := h
  exact foldl_step_inv inputs init inv_init

/-- The database list handed to `generateFiles` is the `databases` variable of a
state that satisfies the invariant. -/
theorem mainLoop_inv :
    ∀ (fuel : Nat) (s : State) (stdin : List String) (dbs : List Database),
      Inv s → mainLoop fuel s stdin = some dbs →
        ∃ s' : State, Inv s' ∧ s'.phase = Phase.done ∧ s'.databases = dbs := by
  intro fuel
  induction fuel with
  | zero =>
    intro s stdin dbs hinv hrun
    unfold mainLoop at hrun
    split_ifs at hrun with hp
    exact ⟨s, hinv, hp, Option.some.inj hrun⟩
  | succ fuel ih =>
    intro s stdin dbs hinv hrun
    unfold mainLoop at hrun
    split_ifs at hrun with hp
    · exact ⟨s, hinv, hp, Option.some.inj hrun⟩
    · exact ih _ _ dbs (step_inv s _ hinv) hrun

theorem main_inv {fuel : Nat} {stdin : List String} {dbs : List Database}
    (h : main fuel stdin = some dbs) :
    ∃ s' : State, Inv s' ∧ s'.phase = Phase.done ∧ s'.databases = dbs :=
  mainLoop_inv fuel init stdin dbs inv_init h

/-! ## The claims -/

/-- A line whose name is new and whose flag token is not a boolean is rejected
after its name has been put in `columnMap`. -/
theorem columnOfParts_badAutoInc (columnMap : List String) (parts : List String)
    (hlen : 6 ≤ parts.length) (hnew : trimSpace (parts.getD 0 "") ∉ columnMap)
    (hflag : parseBool (trimSpace (parts.getD 5 "")) = none)
    (hne : trimSpace (parts.getD 5 "") ≠ "") :
    columnOfParts columnMap parts =
      ColumnOutcome.rejected ColumnError.badAutoInc (trimSpace (parts.getD 0 "") :: columnMap) := by
  have ha : autoIncOf parts = trimSpace (parts.getD 5 "") := by
    unfold autoIncOf
    rw [if_pos hlen]
  rw [columnOfParts_eq, if_neg (by omega), if_neg (by simpa [hasKey] using hnew), ha,
    if_pos ⟨hflag, hne⟩]

/-- C1 (the code departs from the claim): at the column prompt of the new table
`items`, the line `id INT null not PRIMARY maybe` is rejected for its flag and
appends no column, but it leaves `id` in `columnMap`; the corrected line
`id INT null not PRIMARY true`, which the same prompt accepts when it comes
first, is then rejected as a duplicate, and the table is generated without the
column. -/
theorem C1_rejected_flag_keeps_name_used :
    (["shop", "items"].foldl step init).phase = Phase.column ∧
    (["shop", "items"].foldl step init).tableColumns = [] ∧
    (["shop", "items"].foldl step init).columnMap = [] ∧
    columnBody [] "id INT null not PRIMARY maybe" =
      ColumnOutcome.rejected ColumnError.badAutoInc ["id"] ∧
    (["shop", "items", "id INT null not PRIMARY maybe"].foldl step init).tableColumns = [] ∧
    (["shop", "items", "id INT null not PRIMARY maybe"].foldl step init).columnMap = ["id"] ∧
    columnBody ["id"] "id INT null not PRIMARY true" =
      ColumnOutcome.rejected ColumnError.duplicate ["id"] ∧
    columnBody [] "id INT null not PRIMARY true" =
      ColumnOutcome.accepted
        { Typ := "INT", Name := "id", Length := "", Null := "not", Key := "PRIMARY",
          AutoInc := true, GoType := "int", JsonTag := "id" } ["id"] ∧
    main 7 ["shop", "items", "id INT null not PRIMARY maybe", "id INT null not PRIMARY true",
        ".exit", ".exit", ".exit"] =
      some [{ Name := "shop", Tables := [{ Name := "items", Columns := [] }] }] := by
  decide

theorem columnBody_empty (columnMap : List String) :
    columnBody columnMap "" = ColumnOutcome.rejected ColumnError.insufficient columnMap :=
  rfl

/-- Reading the empty string never brings `main` to `generateFiles`. -/
theorem step_empty_phase (s : State) (h : s.phase ≠ Phase.done) :
    (step s "").phase ≠ Phase.done := by
  unfold step
  cases hp : s.phase with
  | database =>
    have ht : trimSpace "" = "" := by decide
    unfold stepDatabase
    simp only [ht]
    rw [if_neg (by decide)]
    split_ifs
    · rw [hp]
      decide
    · simp
  | table =>
    have ht : trimSpace "" = "" := by decide
    unfold stepTable
    simp only [ht]
    rw [if_neg (by decide)]
    split_ifs
    · rw [hp]
      decide
    · simp
  | column =>
    unfold stepColumn
    rw [columnBody_empty]
    simp [hp]
  | done => exact absurd hp h

/-- C2 (the code departs from the claim): once standard input is exhausted,
`main` never reaches `generateFiles`: from every state at a database, table or
column prompt and for every number of further reads, the loops of `main` are
still running. -/
theorem C2_exhausted_input_never_terminates (fuel : Nat) :
    ∀ s : State, s.phase ≠ Phase.done → mainLoop fuel s [] = none := by
  induction fuel with
  | zero =>
    intro s h
    unfold mainLoop
    rw [if_neg h]
  | succ fuel ih =>
    intro s h
    unfold mainLoop
    rw [if_neg h]
    exact ih _ (step_empty_phase s h)

/-- C2, at the three prompts: the first database prompt, the table prompt of
database `shop` and the column prompt of its table `items`. -/
theorem C2_exhausted_input_never_terminates_witness :
    (init.phase ≠ Phase.done ∧ mainLoop 1000 init [] = none) ∧
    ((["shop"].foldl step init).phase = Phase.table ∧
      mainLoop 1000 (["shop"].foldl step init) [] = none) ∧
    ((["shop", "items"].foldl step init).phase = Phase.column ∧
      mainLoop 1000 (["shop", "items"].foldl step init) [] = none) :=
  ⟨⟨by decide, C2_exhausted_input_never_terminates 1000 init (by decide)⟩,
   ⟨by decide, C2_exhausted_input_never_terminates 1000 _ (by decide)⟩,
   ⟨by decide, C2_exhausted_input_never_terminates 1000 _ (by decide)⟩⟩

/-- C3: the databases handed to `generateFiles` have pairwise distinct names
(exact string equality), and at the database prompt a line whose trimmed text
is the name of a database already collected changes nothing: no second
database is created. -/
theorem C3_database_names_distinct :
    (∀ (fuel : Nat) (stdin : List String) (dbs : List Database),
      main fuel stdin = some dbs → (dbs.map Database.Name).Nodup) ∧
    (∀ (s : State) (input : String), Reachable s → s.phase = Phase.database →
      trimSpace input ∈ s.databases.map Database.Name → step s input = s) := by
  constructor
  · intro fuel stdin dbs h
    obtain ⟨s', hinv, _, hdbs⟩ := main_inv h
    rw [← hdbs]
    exact hinv.nodup
  · intro s input hr hp hmem
    have hinv := reachable_inv hr
    have hkey : hasKey s.databaseMap (trimSpace input) = true :=
      (hasKey_eq_true _ _).mpr ((hinv.databaseMap _).mpr (Or.inl hmem))
    have hne : trimSpace input ≠ ".exit" := by
      obtain ⟨d, hd, hdn⟩ := List.mem_map.mp hmem
      rw [← hdn]
      exact (hinv.names d hd).1
    unfold step
    rw [hp]
    unfold stepDatabase
    simp only
    rw [if_neg hne, if_pos hkey]

/-- C3 on the input `shop`, `.exit`, `shop`, `Shop`, `.exit`, `.exit`: the
second `shop` is rejected at the database prompt, `Shop` is a different name,
and the result has the two databases `shop` and `Shop`. -/
theorem C3_database_names_distinct_witness :
    main 7 ["shop", ".exit", "shop", "Shop", ".exit", ".exit"] =
        some [{ Name := "shop", Tables := [] }, { Name := "Shop", Tables := [] }] ∧
      (["shop", "Shop"] : List String).Nodup ∧
      step (["shop", ".exit"].foldl step init) "shop" = ["shop", ".exit"].foldl step init :=
  ⟨by decide,
   C3_database_names_distinct.1 7 ["shop", ".exit", "shop", "Shop", ".exit", ".exit"]
     [{ Name := "shop", Tables := [] }, { Name := "Shop", Tables := [] }] (by decide),
   C3_database_names_distinct.2 (["shop", ".exit"].foldl step init) "shop"
     ⟨["shop", ".exit"], rfl⟩ (by decide) (by decide)⟩

/-- C4: in every database handed to `generateFiles` the tables have pairwise
distinct names, and at the table prompt of a database every name other than the
sentinel that is not the name of a table of this database is accepted, whatever
tables the other databases have. -/
theorem C4_table_names_distinct_per_database :
    (∀ (fuel : Nat) (stdin : List String) (dbs : List Database),
      main fuel stdin = some dbs → ∀ d ∈ dbs, (d.Tables.map Table.Name).Nodup) ∧
    (∀ (s : State) (input : String), Reachable s → s.phase = Phase.table →
      trimSpace input ≠ ".exit" → trimSpace input ∉ s.db.Tables.map Table.Name →
        (step s input).phase = Phase.column ∧ (step s input).tableName = trimSpace input ∧
          (step s input).tableColumns = [] ∧ (step s input).db = s.db) := by
  constructor
  · intro fuel stdin dbs h d hd
    obtain ⟨s', hinv, _, hdbs⟩ := main_inv h
    rw [← hdbs] at hd
    exact (hinv.tables d hd).nodup
  · intro s input hr hp hne hnew
    have hinv := reachable_inv hr
    have hcur := hinv.current (Or.inl hp)
    have hkey : ¬ hasKey (tableMapGet s.tableMap s.databaseName) (trimSpace input) = true := by
      rw [hasKey_eq_true, hcur.tableMap, hp]
      simp only [not_or, not_and]
      exact ⟨hnew, fun hc => absurd hc (by decide)⟩
    unfold step
    rw [hp]
    unfold stepTable
    simp only
    rw [if_neg hne, if_neg hkey]
    exact ⟨rfl, rfl, rfl, rfl⟩

/-- C4 on the input `a`, `users`, `.exit`, `.exit`, `b`, `users`, `.exit`,
`.exit`, `.exit`: the table name `users`, accepted in database `a`, is accepted
again in database `b`. -/
theorem C4_table_names_distinct_per_database_witness :
    main 10 ["a", "users", ".exit", ".exit", "b", "users", ".exit", ".exit", ".exit"] =
        some [{ Name := "a", Tables := [{ Name := "users", Columns := [] }] },
              { Name := "b", Tables := [{ Name := "users", Columns := [] }] }] ∧
      (∀ d ∈ [({ Name := "a", Tables := [{ Name := "users", Columns := [] }] } : Database),
              { Name := "b", Tables := [{ Name := "users", Columns := [] }] }],
        (d.Tables.map Table.Name).Nodup) ∧
      ((step (["a", "users", ".exit", ".exit", "b"].foldl step init) "users").phase =
          Phase.column ∧
        (step (["a", "users", ".exit", ".exit", "b"].foldl step init) "users").tableName =
          trimSpace "users" ∧
        (step (["a", "users", ".exit", ".exit", "b"].foldl step init) "users").tableColumns =
          [] ∧
        (step (["a", "users", ".exit", ".exit", "b"].foldl step init) "users").db =
          (["a", "users", ".exit", ".exit", "b"].foldl step init).db) :=
  ⟨by decide,
   C4_table_names_distinct_per_database.1 10
     ["a", "users", ".exit", ".exit", "b", "users", ".exit", ".exit", ".exit"] _ (by decide),
   C4_table_names_distinct_per_database.2
     (["a", "users", ".exit", ".exit", "b"].foldl step init) "users"
     ⟨["a", "users", ".exit", ".exit", "b"], rfl⟩ (by decide) (by decide) (by decide)⟩

/-- C5: in every table handed to `generateFiles` the columns have pairwise
distinct names. -/
theorem C5_column_names_distinct_per_table (fuel : Nat) (stdin : List String)
    (dbs : List Database) (h : main fuel stdin = some dbs) :
    ∀ d ∈ dbs, ∀ t ∈ d.Tables, (t.Columns.map Column.Name).Nodup := by
  intro d hd t ht
  obtain ⟨s', hinv, _, hdbs⟩ := main_inv h
  rw [← hdbs] at hd
  exact (hinv.tables d hd).columns t ht

/-- C5 on a table given the lines `id INT null not`, `id TEXT null null` and
`name VARCHAR 50 not`: the second `id` is rejected and the table has the
columns `id` and `name`. -/
theorem C5_column_names_distinct_per_table_witness :
    main 9 ["shop", "items", "id INT null not", "id TEXT null null", "name VARCHAR 50 not",
        ".exit", ".exit", ".exit"] =
      some [{ Name := "shop", Tables := [{ Name := "items", Columns :=
        [{ Typ := "INT", Name := "id", Length := "", Null := "not", Key := "",
           AutoInc := false, GoType := "int", JsonTag := "id" },
         { Typ := "VARCHAR", Name := "name", Length := "50", Null := "not", Key := "",
           AutoInc := false, GoType := "string", JsonTag := "name" }] }] }] ∧
    ∀ d ∈ [({ Name := "shop", Tables := [{ Name := "items", Columns :=
        [{ Typ := "INT", Name := "id", Length := "", Null := "not", Key := "",
           AutoInc := false, GoType := "int", JsonTag := "id" },
         { Typ := "VARCHAR", Name := "name", Length := "50", Null := "not", Key := "",
           AutoInc := false, GoType := "string", JsonTag := "name" }] }] } : Database)],
      ∀ t ∈ d.Tables, (t.Columns.map Column.Name).Nodup :=
  ⟨by decide,
   C5_column_names_distinct_per_table 9
     ["shop", "items", "id INT null not", "id TEXT null null", "name VARCHAR 50 not",
       ".exit", ".exit", ".exit"] _ (by decide)⟩

/-- C6, as stated, fails: on the input of two blank lines followed by three
`.exit` lines, `main` hands `generateFiles` one database with the empty name,
which has one table with the empty name. -/
theorem C6_blank_names_counterexample :
    main 6 ["", "", ".exit", ".exit", ".exit"] =
        some [{ Name := "", Tables := [{ Name := "", Columns := [] }] }] ∧
      ¬ (∀ (fuel : Nat) (stdin : List String) (dbs : List Database),
          main fuel stdin = some dbs →
            ∀ d ∈ dbs, d.Name ≠ "" ∧ ∀ t ∈ d.Tables, t.Name ≠ "") := by
  refine ⟨by decide, ?_⟩
  intro hall
  have h := hall 6 ["", "", ".exit", ".exit", ".exit"]
    [{ Name := "", Tables := [{ Name := "", Columns := [] }] }] (by decide)
    { Name := "", Tables := [{ Name := "", Columns := [] }] } (List.mem_singleton.mpr rfl)
  exact h.1 rfl

/-- C6, amended: every database name and every table name handed to
`generateFiles` differs from the sentinel `.exit` and has no white space at
either end (trimming it changes nothing); the name may be empty, since a blank
line is accepted at the database prompt when no database has the empty name
yet, and at the table prompt when no table of the database has it yet. -/
theorem C6_names_trimmed_not_sentinel :
    (∀ (fuel : Nat) (stdin : List String) (dbs : List Database),
      main fuel stdin = some dbs →
        ∀ d ∈ dbs, (d.Name ≠ ".exit" ∧ trimSpace d.Name = d.Name) ∧
          ∀ t ∈ d.Tables, t.Name ≠ ".exit" ∧ trimSpace t.Name = t.Name) ∧
    (∀ (s : State) (input : String), Reachable s → s.phase = Phase.database →
      trimSpace input = "" → "" ∉ s.databases.map Database.Name →
        (step s input).phase = Phase.table ∧
          (step s input).db = { Name := "", Tables := [] }) ∧
    (∀ (s : State) (input : String), Reachable s → s.phase = Phase.table →
      trimSpace input = "" → "" ∉ s.db.Tables.map Table.Name →
        (step s input).phase = Phase.column ∧ (step s input).tableName = "") := by
  refine ⟨?_, ?_, ?_⟩
  · intro fuel stdin dbs h d hd
    obtain ⟨s', hinv, _, hdbs⟩ := main_inv h
    rw [← hdbs] at hd
    exact ⟨hinv.names d hd, fun t ht => (hinv.tables d hd).names t ht⟩
  · intro s input hr hp hblank hnew
    have hinv := reachable_inv hr
    have hkey : ¬ hasKey s.databaseMap "" = true := by
      rw [hasKey_eq_true, hinv.databaseMap, hp]
      simp only [not_or, not_and]
      exact ⟨hnew, fun hc => absurd hc (by decide)⟩
    unfold step
    rw [hp]
    unfold stepDatabase
    simp only [hblank]
    rw [if_neg (by decide), if_neg hkey]
    exact ⟨rfl, rfl⟩
  · intro s input hr hp hblank hnew
    have hinv := reachable_inv hr
    have hcur := hinv.current (Or.inl hp)
    have hkey : ¬ hasKey (tableMapGet s.tableMap s.databaseName) "" = true := by
      rw [hasKey_eq_true, hcur.tableMap, hp]
      simp only [not_or, not_and]
      exact ⟨hnew, fun hc => absurd hc (by decide)⟩
    unfold step
    rw [hp]
    unfold stepTable
    simp only [hblank]
    rw [if_neg (by decide), if_neg hkey]
    exact ⟨rfl, rfl⟩

/-- C6 amended, on the input ` shop `, a blank line, `.exit`, `.exit`, `.exit`:
the database name is trimmed to `shop`, and the blank line is accepted as the
name of its table. -/
theorem C6_names_trimmed_not_sentinel_witness :
    main 6 [" shop ", " ", ".exit", ".exit", ".exit"] =
        some [{ Name := "shop", Tables := [{ Name := "", Columns := [] }] }] ∧
      (∀ d ∈ [({ Name := "shop", Tables := [{ Name := "", Columns := [] }] } : Database)],
        (d.Name ≠ ".exit" ∧ trimSpace d.Name = d.Name) ∧
          ∀ t ∈ d.Tables, t.Name ≠ ".exit" ∧ trimSpace t.Name = t.Name) ∧
      ((step init " ").phase = Phase.table ∧ (step init " ").db = { Name := "", Tables := [] }) ∧
      ((step ([" shop "].foldl step init) " ").phase = Phase.column ∧
        (step ([" shop "].foldl step init) " ").tableName = "") :=
  ⟨by decide,
   C6_names_trimmed_not_sentinel.1 6 [" shop ", " ", ".exit", ".exit", ".exit"] _ (by decide),
   C6_names_trimmed_not_sentinel.2.1 init " " ⟨[], rfl⟩ (by decide) (by decide) (by decide),
   C6_names_trimmed_not_sentinel.2.2 ([" shop "].foldl step init) " " ⟨[" shop "], rfl⟩
     (by decide) (by decide) (by decide)⟩

theorem exit_tokens (line : String) (h : trimSpace line = ".exit") :
    fieldsFunc isSep (trimSpace line) = [".exit"] := by
  rw [h]
  decide

/-- A line with at least two tokens is not the sentinel, so the loop body runs
on its tokens. -/
theorem columnBody_of_tokens (columnMap : List String) (line : String) (t0 t1 : String)
    (rest : List String) (htok : fieldsFunc isSep (trimSpace line) = t0 :: t1 :: rest) :
    columnBody columnMap line = columnOfParts columnMap (t0 :: t1 :: rest) := by
  have hne : trimSpace line ≠ ".exit" := by
    intro he
    rw [exit_tokens line he] at htok
    simp at htok
  unfold columnBody
  simp only
  rw [if_neg hne, htok]

/-- C7: for an accepted column line with tokens `t0 t1 t2 t3` and further tokens
`rest`, the appended Column has Name `t0`, Type `t1`, Length `t2` except that
exactly `null` gives the empty Length, Null `t3`, Key the fifth token or the
empty string when there is none, AutoInc the boolean value of the sixth token
or `false` when there is none, and JsonTag `t0`; the Column depends on the line
only, not on the state in which the line is accepted. -/
theorem C7_column_fields_from_tokens (columnMap columnMap' : List String) (line : String)
    (col : Column) (t0 t1 t2 t3 : String) (rest : List String)
    (htok : fieldsFunc isSep (trimSpace line) = t0 :: t1 :: t2 :: t3 :: rest)
    (hacc : columnBody columnMap line = ColumnOutcome.accepted col columnMap') :
    col.Name = t0 ∧ col.Typ = t1 ∧ col.Length = (if t2 = "null" then "" else t2) ∧
      col.Null = t3 ∧
      col.Key = (match rest with
        | [] => ""
        | t4 :: _ => t4) ∧
      (match rest with
        | _ :: t5 :: _ => parseBool t5 = some col.AutoInc
        | _ => col.AutoInc = false) ∧
      col.JsonTag = t0 ∧
      (∀ (other other' : List String) (col2 : Column),
        columnBody other line = ColumnOutcome.accepted col2 other' → col2 = col) := by
  have hmem : ∀ t ∈ t0 :: t1 :: t2 :: t3 :: rest, trimSpace t = t ∧ t ≠ "" := by
    intro t ht
    rw [← htok] at ht
    exact ⟨trimSpace_token _ t ht, (fieldsFunc_token isSep _ t ht).1⟩
  have h0 := (hmem t0 (by simp)).1
  have h1 := (hmem t1 (by simp)).1
  have h2 := (hmem t2 (by simp)).1
  have h3 := (hmem t3 (by simp)).1
  obtain ⟨_, hcol, _, _, hflag⟩ := columnOfParts_accepted (columnBody_accepted hacc).2
  rw [htok] at hcol hflag
  refine ⟨?_, ?_, ?_, ?_, ?_, ?_, ?_, ?_⟩
  · rw [hcol]
    simp [columnFields, h0]
  · rw [hcol]
    simp [columnFields, h1]
  · rw [hcol]
    simp [columnFields, h2]
  · rw [hcol]
    simp [columnFields, h3]
  · rw [hcol]
    cases rest with
    | nil => simp [columnFields]
    | cons t4 rest' =>
      have h4 := (hmem t4 (by simp)).1
      simp [columnFields, h4]
  · rw [hcol]
    match rest, hmem, hflag with
    | [], _, _ =>
      have : parseBool "false" = some false := by decide
      simp [columnFields, autoIncOf, this]
    | [_], _, _ =>
      have : parseBool "false" = some false := by decide
      simp [columnFields, autoIncOf, this]
    | t4 :: t5 :: rest', hmem', hflag' =>
      have h5 := hmem' t5 (by simp)
      have ha : autoIncOf (t0 :: t1 :: t2 :: t3 :: t4 :: t5 :: rest') = t5 := by
        simp [autoIncOf, h5.1]
      rw [ha] at hflag'
      simp only [columnFields, ha]
      cases hb : parseBool t5 with
      | none => exact absurd ⟨hb, h5.2⟩ hflag'
      | some b => simp
  · rw [hcol]
    simp [columnFields, h0]
  · intro other other' col2 hacc2
    obtain ⟨_, hcol2, _, _, _⟩ := columnOfParts_accepted (columnBody_accepted hacc2).2
    rw [htok] at hcol2
    rw [hcol, hcol2]

/-- C7 on the line `price DECIMAL NULL null UNIQUE 0 extra`: the upper-case
`NULL` is kept as the Length. -/
theorem C7_column_fields_from_tokens_witness :
    fieldsFunc isSep (trimSpace "price DECIMAL NULL null UNIQUE 0 extra") =
        ["price", "DECIMAL", "NULL", "null", "UNIQUE", "0", "extra"] ∧
      columnBody ["id"] "price DECIMAL NULL null UNIQUE 0 extra" =
        ColumnOutcome.accepted
          { Typ := "DECIMAL", Name := "price", Length := "NULL", Null := "null",
            Key := "UNIQUE", AutoInc := false, GoType := "interface\x7b\x7d",
            JsonTag := "price" } ["price", "id"] ∧
      (("price" : String) = "price" ∧ ("DECIMAL" : String) = "DECIMAL" ∧
        ("NULL" : String) = (if ("NULL" : String) = "null" then "" else "NULL") ∧
        ("null" : String) = "null" ∧ ("UNIQUE" : String) = "UNIQUE" ∧
        parseBool "0" = some false ∧ ("price" : String) = "price" ∧
        (∀ (other other' : List String) (col2 : Column),
          columnBody other "price DECIMAL NULL null UNIQUE 0 extra" =
            ColumnOutcome.accepted col2 other' →
          col2 =
            { Typ := "DECIMAL", Name := "price", Length := "NULL", Null := "null",
              Key := "UNIQUE", AutoInc := false, GoType := "interface\x7b\x7d",
              JsonTag := "price" })) :=
  ⟨by decide, by decide,
   C7_column_fields_from_tokens ["id"] ["price", "id"] "price DECIMAL NULL null UNIQUE 0 extra"
     { Typ := "DECIMAL", Name := "price", Length := "NULL", Null := "null",
       Key := "UNIQUE", AutoInc := false, GoType := "interface\x7b\x7d", JsonTag := "price" }
     "price" "DECIMAL" "NULL" "null" ["UNIQUE", "0", "extra"] (by decide) (by decide)⟩

/-- The `switch` of lines 153-167 is the type-vocabulary table. -/
theorem goTypeOf_eq_spec (t : String) : goTypeOf t = specTargetType t := by
  unfold goTypeOf specTargetType typeVocabulary
  split_ifs with h1 h2 h3 h4 h5
  · rw [List.find?_cons_of_pos _ (by simpa using h1)]
  · rw [List.find?_cons_of_neg _ (by simpa using h1),
      List.find?_cons_of_pos _ (by simpa using h2)]
  · rw [List.find?_cons_of_neg _ (by simpa using h1),
      List.find?_cons_of_neg _ (by simpa using h2),
      List.find?_cons_of_pos _ (by simpa using h3)]
  · rw [List.find?_cons_of_neg _ (by simpa using h1),
      List.find?_cons_of_neg _ (by simpa using h2),
      List.find?_cons_of_neg _ (by simpa using h3),
      List.find?_cons_of_pos _ (by simpa using h4)]
  · rw [List.find?_cons_of_neg _ (by simpa using h1),
      List.find?_cons_of_neg _ (by simpa using h2),
      List.find?_cons_of_neg _ (by simpa using h3),
      List.find?_cons_of_neg _ (by simpa using h4),
      List.find?_cons_of_pos _ (by simpa using h5)]
  · rw [List.find?_cons_of_neg _ (by simpa using h1),
      List.find?_cons_of_neg _ (by simpa using h2),
      List.find?_cons_of_neg _ (by simpa using h3),
      List.find?_cons_of_neg _ (by simpa using h4),
      List.find?_cons_of_neg _ (by simpa using h5), List.find?_nil]

theorem autoIncOf_type_irrelevant (t0 t1 t1' : String) (rest : List String) :
    autoIncOf (t0 :: t1 :: rest) = autoIncOf (t0 :: t1' :: rest) := by
  unfold autoIncOf
  simp

/-- C8: the derived target type of every accepted column is the row of the
type-vocabulary table that lists its declared type token, compared exactly
(INT, INTEGER, SMALLINT, BIGINT give int; VARCHAR, TEXT, CHAR, LONGTEXT give
string; DATE, DATETIME, TIMESTAMP, TIME give time.Time; BOOLEAN, BOOL give bool;
FLOAT, DOUBLE, REAL give float64), and the generic type for every other token,
the lower-case `int` included; and whether a line is accepted does not depend
on its type token. -/
theorem C8_target_type_is_vocabulary_lookup :
    (∀ (columnMap columnMap' : List String) (line : String) (col : Column),
      columnBody columnMap line = ColumnOutcome.accepted col columnMap' →
        col.GoType = specTargetType col.Typ) ∧
    (∀ t : String, specTargetType t =
      if t ∈ ["INT", "INTEGER", "SMALLINT", "BIGINT"] then "int"
      else if t ∈ ["VARCHAR", "TEXT", "CHAR", "LONGTEXT"] then "string"
      else if t ∈ ["DATE", "DATETIME", "TIMESTAMP", "TIME"] then "time.Time"
      else if t ∈ ["BOOLEAN", "BOOL"] then "bool"
      else if t ∈ ["FLOAT", "DOUBLE", "REAL"] then "float64"
      else "interface\x7b\x7d") ∧
    goTypeOf "int" = "interface\x7b\x7d" ∧
    (∀ (columnMap : List String) (line line' : String) (t0 t1 t1' : String)
      (rest : List String),
      fieldsFunc isSep (trimSpace line) = t0 :: t1 :: rest →
      fieldsFunc isSep (trimSpace line') = t0 :: t1' :: rest →
        ((∃ col columnMap', columnBody columnMap line = ColumnOutcome.accepted col columnMap') ↔
          (∃ col columnMap',
            columnBody columnMap line' = ColumnOutcome.accepted col columnMap'))) := by
  refine ⟨?_, ?_, by decide, ?_⟩
  · intro columnMap columnMap' line col hacc
    obtain ⟨_, hcol, _, _, _⟩ := columnOfParts_accepted (columnBody_accepted hacc).2
    rw [hcol]
    exact goTypeOf_eq_spec _
  · intro t
    rw [← goTypeOf_eq_spec]
    unfold goTypeOf
    simp only [List.mem_cons, List.mem_singleton, List.not_mem_nil, or_false]
  · intro columnMap line line' t0 t1 t1' rest htok htok'
    rw [columnBody_of_tokens columnMap line t0 t1 rest htok,
      columnBody_of_tokens columnMap line' t0 t1' rest htok',
      columnOfParts_eq, columnOfParts_eq, autoIncOf_type_irrelevant t0 t1 t1' rest]
    simp only [List.length_cons, List.getD_cons_zero]
    split_ifs <;> simp

/-- C8 on the lines `n int 5 not` and `n INT 5 not`: both are accepted, the
first with the generic type. -/
theorem C8_target_type_is_vocabulary_lookup_witness :
    columnBody [] "n int 5 not" =
        ColumnOutcome.accepted
          { Typ := "int", Name := "n", Length := "5", Null := "not", Key := "",
            AutoInc := false, GoType := "interface\x7b\x7d", JsonTag := "n" } ["n"] ∧
      ("interface\x7b\x7d" : String) = specTargetType "int" ∧
      ((∃ col columnMap', columnBody [] "n int 5 not" = ColumnOutcome.accepted col columnMap') ↔
        (∃ col columnMap',
          columnBody [] "n INT 5 not" = ColumnOutcome.accepted col columnMap')) :=
  ⟨by decide,
   C8_target_type_is_vocabulary_lookup.1 [] ["n"] "n int 5 not"
     { Typ := "int", Name := "n", Length := "5", Null := "not", Key := "",
       AutoInc := false, GoType := "interface\x7b\x7d", JsonTag := "n" } (by decide),
   C8_target_type_is_vocabulary_lookup.2.2.2 [] "n int 5 not" "n INT 5 not" "n" "int" "INT"
     ["5", "not"] (by decide) (by decide)⟩

/-- The column clause written by `generateFiles` is the clause of the
specification. -/
theorem columnClause_eq_spec (toUpper : String → String) (col : Column) :
    columnClause toUpper col = specColumnClause toUpper col := by
  unfold columnClause specColumnClause specKeyClause
  simp only [String.append_assoc]
  by_cases hl : col.Length = ""
  · by_cases hk : col.Key = "PRIMARY"
    · cases ha : col.AutoInc <;> simp [hl, hk, String.append_assoc]
    · simp [hl, hk]
  · by_cases hk : col.Key = "PRIMARY"
    · cases ha : col.AutoInc <;> simp [hl, hk, String.append_assoc]
    · simp [hl, hk]

/-- C9: the SQL column clause written for a Column is a tab, the name, a space,
the upper-cased type, the Length in parentheses when it is not empty, ` NULL`
when the nullability token is exactly `null` and ` NOT NULL` otherwise, then
the key clause (` PRIMARY KEY`, with ` AUTO_INCREMENT` after it iff AutoInc is
set, for `PRIMARY`; ` UNIQUE` for `UNIQUE`; ` FOREIGN KEY` for `FOREIGN`;
nothing for any other Key); AutoInc changes nothing unless Key is `PRIMARY`. -/
theorem C9_sql_column_clause (toUpper : String → String) (col : Column) :
    columnClause toUpper col =
        "\t" ++ (col.Name ++ (" " ++ (toUpper col.Typ ++
          ((if col.Length = "" then "" else "(" ++ col.Length ++ ")") ++
            ((if col.Null = "null" then " NULL" else " NOT NULL") ++
              specKeyClause col.Key col.AutoInc))))) ∧
      specKeyClause "PRIMARY" true = " PRIMARY KEY AUTO_INCREMENT" ∧
      specKeyClause "PRIMARY" false = " PRIMARY KEY" ∧
      (∀ b : Bool, specKeyClause "UNIQUE" b = " UNIQUE") ∧
      (∀ b : Bool, specKeyClause "FOREIGN" b = " FOREIGN KEY") ∧
      (∀ (key : String) (b : Bool), key ≠ "PRIMARY" → key ≠ "UNIQUE" → key ≠ "FOREIGN" →
        specKeyClause key b = "") ∧
      (col.Key ≠ "PRIMARY" → ∀ b : Bool,
        columnClause toUpper { col with AutoInc := b } = columnClause toUpper col) := by
  refine ⟨columnClause_eq_spec toUpper col, by decide, by decide, by decide, by decide, ?_, ?_⟩
  · intro key b h1 h2 h3
    unfold specKeyClause
    rw [if_neg h1, if_neg h2, if_neg h3]
  · intro hk b
    unfold columnClause
    simp only [if_neg hk]

/-- C9 on the column `email varchar(120) NOT NULL UNIQUE` with AutoInc set: the
clause has no ` AUTO_INCREMENT`. -/
theorem C9_sql_column_clause_witness :
    columnClause asciiToUpper
        { Typ := "varchar", Name := "email", Length := "120", Null := "not", Key := "UNIQUE",
          AutoInc := true, GoType := "interface\x7b\x7d", JsonTag := "email" } =
      "\temail VARCHAR(120) NOT NULL UNIQUE" ∧
    columnClause asciiToUpper
        { Typ := "varchar", Name := "email", Length := "120", Null := "not", Key := "UNIQUE",
          AutoInc := false, GoType := "interface\x7b\x7d", JsonTag := "email" } =
      columnClause asciiToUpper
        { Typ := "varchar", Name := "email", Length := "120", Null := "not", Key := "UNIQUE",
          AutoInc := true, GoType := "interface\x7b\x7d", JsonTag := "email" } :=
  ⟨by decide,
   (C9_sql_column_clause asciiToUpper
     { Typ := "varchar", Name := "email", Length := "120", Null := "not", Key := "UNIQUE",
       AutoInc := true, GoType := "interface\x7b\x7d", JsonTag := "email" }).2.2.2.2.2.2
     (by decide) false⟩

/-! ### The whole SQL text -/

theorem concat_append (xs ys : List String) : concat (xs ++ ys) = concat xs ++ concat ys := by
  induction xs with
  | nil => simp [concat]
  | cons x xs ih => simp [concat, ih, String.append_assoc]

/-- The column loop from index `j`, when `j` columns came before `cols`. -/
theorem writeColumns_eq (toUpper : String → String) (n : Nat) :
    ∀ (cols : List Column) (j : Nat) (out : String), j + cols.length = n →
      writeColumns toUpper n j cols out = out ++ specColumnLines toUpper cols
  | [], _, out, _ => by simp [writeColumns, specColumnLines]
  | [col], j, out, h => by
    have hj : ¬ ((j : Int) < (n : Int) - 1) := by
      simp only [List.length_singleton] at h
      omega
    simp only [writeColumns, specColumnLines, if_neg hj, columnClause_eq_spec,
      String.append_assoc, String.append_empty]
  | col :: next :: rest, j, out, h => by
    have hj : (j : Int) < (n : Int) - 1 := by
      simp only [List.length_cons] at h
      omega
    have ih := writeColumns_eq toUpper n (next :: rest) (j + 1)
      (out ++ columnClause toUpper col ++ "," ++ "\n")
      (by simp only [List.length_cons] at h ⊢; omega)
    rw [writeColumns]
    simp only [if_pos hj]
    rw [ih]
    simp only [specColumnLines, columnClause_eq_spec, String.append_assoc]

theorem writeTable_eq (toUpper : String → String) (out : String) (table : Table) :
    writeTable toUpper out table = out ++ specTableBlock toUpper table := by
  unfold writeTable specTableBlock
  simp only [writeColumns_eq toUpper table.Columns.length table.Columns 0 _ (by omega),
    String.append_assoc]

theorem foldl_writeTable_eq (toUpper : String → String) :
    ∀ (tables : List Table) (out : String),
      tables.foldl (writeTable toUpper) out =
        out ++ concat (tables.map (specTableBlock toUpper))
  | [], out => by simp [concat]
  | t :: ts, out => by
    simp only [List.foldl_cons, List.map_cons, concat, writeTable_eq,
      foldl_writeTable_eq toUpper ts, String.append_assoc]

theorem writeDatabase_eq (toUpper : String → String) (out : String) (db : Database) :
    writeDatabase toUpper out db = out ++ specDatabaseBlock toUpper db := by
  have hsplit : (";\nUSE " : String) = ";\n" ++ "USE " := by decide
  unfold writeDatabase specDatabaseBlock
  simp only [foldl_writeTable_eq, hsplit, String.append_assoc]

theorem foldl_writeDatabase_eq (toUpper : String → String) :
    ∀ (databases : List Database) (out : String),
      databases.foldl (writeDatabase toUpper) out =
        out ++ concat (databases.map (specDatabaseBlock toUpper))
  | [], out => by simp [concat]
  | d :: ds, out => by
    simp only [List.foldl_cons, List.map_cons, concat, writeDatabase_eq,
      foldl_writeDatabase_eq toUpper ds, String.append_assoc]

theorem generateSQL_eq_spec (toUpper : String → String) (databases : List Database) :
    generateSQL toUpper databases = specSQL toUpper databases := by
  unfold generateSQL specSQL
  rw [foldl_writeDatabase_eq]
  simp

/-- C10: the SQL text written by `generateFiles` is, in list order, one block
per database: `CREATE DATABASE IF NOT EXISTS <name>;`, `USE <name>;`, a blank
line, then for each table in table order `CREATE TABLE <table> (`, the column
clauses in column order, each ended by a newline, with a comma after every
clause except the last, and `);` followed by a blank line; the text of two
database lists one after the other is the text of the first followed by the
text of the second. -/
theorem C10_sql_text (toUpper : String → String) :
    (∀ databases : List Database,
      generateSQL toUpper databases = concat (databases.map (specDatabaseBlock toUpper))) ∧
    (∀ db : Database, specDatabaseBlock toUpper db =
      "CREATE DATABASE IF NOT EXISTS " ++ db.Name ++ ";\nUSE " ++ db.Name ++ ";\n\n" ++
        concat (db.Tables.map (fun table =>
          "CREATE TABLE " ++ table.Name ++ " (\n" ++ specColumnLines toUpper table.Columns ++
            ");\n\n"))) ∧
    specColumnLines toUpper [] = "" ∧
    (∀ col : Column, specColumnLines toUpper [col] = columnClause toUpper col ++ "\n") ∧
    (∀ (col next : Column) (rest : List Column),
      specColumnLines toUpper (col :: next :: rest) =
        columnClause toUpper col ++ "," ++ "\n" ++ specColumnLines toUpper (next :: rest)) ∧
    (∀ first second : List Database,
      generateSQL toUpper (first ++ second) =
        generateSQL toUpper first ++ generateSQL toUpper second) := by
  refine ⟨generateSQL_eq_spec toUpper, fun db => rfl, rfl, ?_, ?_, ?_⟩
  · intro col
    rw [columnClause_eq_spec]
    rfl
  · intro col next rest
    rw [columnClause_eq_spec]
    rfl
  · intro first second
    simp only [generateSQL_eq_spec, specSQL, List.map_append, concat_append]

/-! ## The collected columns -/

theorem getD_zero_mem (parts : List String) (h : 4 ≤ parts.length) :
    parts.getD 0 "" ∈ parts := by
  cases parts with
  | nil => simp at h
  | cons t rest => simp

/-- The `Column` appended for an accepted line satisfies `ColumnOK`. -/
theorem columnBody_accepted_ok {columnMap columnMap' : List String} {line : String}
    {col : Column} (h : columnBody columnMap line = ColumnOutcome.accepted col columnMap') :
    ColumnOK col := by
  obtain ⟨hlen, hcol, _, _, _⟩ := columnOfParts_accepted (columnBody_accepted h).2
  have hmem := getD_zero_mem _ hlen
  have htrim := trimSpace_token _ _ hmem
  have htok := fieldsFunc_token isSep _ _ hmem
  have hname : col.Name = (fieldsFunc isSep (trimSpace line)).getD 0 "" := by
    rw [hcol]
    exact htrim
  refine ⟨?_, ?_, ?_, ?_⟩
  · rw [hname]
    exact htok.1
  · rw [hname]
    exact htok.2
  · rw [hcol]
    rfl
  · rw [hcol]
    rfl

theorem columnsInv_init : ColumnsInv init :=
  ⟨by simp [init], by simp [init], by simp [init]⟩

theorem step_columnsInv (s : State) (input : String) (h : ColumnsInv s) :
    ColumnsInv (step s input) := by
  unfold step
  cases hp : s.phase with
  | database =>
    dsimp only
    unfold stepDatabase
    dsimp only
    split_ifs
    · exact ⟨h.databases, h.current, h.columns⟩
    · exact h
    · exact ⟨h.databases, by simp, h.columns⟩
  | table =>
    dsimp only
    unfold stepTable
    dsimp only
    split_ifs
    · refine ⟨?_, h.current, h.columns⟩
      intro d hd
      rcases List.mem_append.mp hd with hd | hd
      · exact h.databases d hd
      · simp only [List.mem_singleton] at hd
        subst hd
        exact h.current
    · exact h
    · exact ⟨h.databases, h.current, by simp⟩
  | column =>
    dsimp only
    unfold stepColumn
    cases hb : columnBody s.columnMap input with
    | exit =>
      dsimp only
      refine ⟨h.databases, ?_, h.columns⟩
      intro t ht
      rcases List.mem_append.mp ht with ht | ht
      · exact h.current t ht
      · simp only [List.mem_singleton] at ht
        subst ht
        exact h.columns
    | rejected err columnMap =>
      exact ⟨h.databases, h.current, h.columns⟩
    | accepted col columnMap =>
      dsimp only
      refine ⟨h.databases, h.current, ?_⟩
      intro c hc
      rcases List.mem_append.mp hc with hc | hc
      · exact h.columns c hc
      · simp only [List.mem_singleton] at hc
        subst hc
        exact columnBody_accepted_ok hb
  | done => exact h

theorem mainLoop_columnsInv :
    ∀ (fuel : Nat) (s : State) (stdin : List String) (dbs : List Database),
      ColumnsInv s → mainLoop fuel s stdin = some dbs →
        ∀ d ∈ dbs, ∀ t ∈ d.Tables, ∀ c ∈ t.Columns, ColumnOK c := by
  intro fuel
  induction fuel with
  | zero =>
    intro s stdin dbs hinv hrun
    unfold mainLoop at hrun
    split_ifs at hrun with hp
    rw [← Option.some.inj hrun]
    exact hinv.databases
  | succ fuel ih =>
    intro s stdin dbs hinv hrun
    unfold mainLoop at hrun
    split_ifs at hrun with hp
    · rw [← Option.some.inj hrun]
      exact hinv.databases
    · exact ih _ _ dbs (step_columnsInv s _ hinv) hrun

/-- Every column handed to `generateFiles` satisfies `ColumnOK`. -/
theorem main_columnsOK {fuel : Nat} {stdin : List String} {dbs : List Database}
    (h : main fuel stdin = some dbs) :
    ∀ d ∈ dbs, ∀ t ∈ d.Tables, ∀ c ∈ t.Columns, ColumnOK c :=
  mainLoop_columnsInv fuel init stdin dbs columnsInv_init h

/-! ## The struct text -/

theorem foldl_writeField_eq (title : String → String) :
    ∀ (cols : List Column) (out : String), (∀ c ∈ cols, c.JsonTag = c.Name) →
      cols.foldl (writeField title) out = out ++ concat (cols.map (specFieldLine title))
  | [], out, _ => by simp [concat]
  | c :: cs, out, h => by
    have hc : c.JsonTag = c.Name := h c (List.mem_cons_self _ _)
    have ih := foldl_writeField_eq title cs (writeField title out c)
      (fun x hx => h x (List.mem_cons_of_mem _ hx))
    rw [List.foldl_cons, ih]
    simp only [writeField, specFieldLine, List.map_cons, concat, hc, String.append_assoc]

theorem writeStruct_eq (title : String → String) (out : String) (table : Table)
    (h : ∀ c ∈ table.Columns, c.JsonTag = c.Name) :
    writeStruct title out table = out ++ specStructDecl title table := by
  unfold writeStruct specStructDecl
  simp only [foldl_writeField_eq title table.Columns _ h, String.append_assoc]

theorem foldl_writeStruct_eq (title : String → String) :
    ∀ (tables : List Table) (out : String),
      (∀ t ∈ tables, ∀ c ∈ t.Columns, c.JsonTag = c.Name) →
      tables.foldl (writeStruct title) out =
        out ++ concat (tables.map (specStructDecl title))
  | [], out, _ => by simp [concat]
  | t :: ts, out, h => by
    have ih := foldl_writeStruct_eq title ts (writeStruct title out t)
      (fun x hx => h x (List.mem_cons_of_mem _ hx))
    rw [List.foldl_cons, ih, writeStruct_eq title out t (h t (List.mem_cons_self _ _))]
    simp only [List.map_cons, concat, String.append_assoc]

theorem foldl_writeStructs_eq (title : String → String) :
    ∀ (databases : List Database) (out : String),
      (∀ d ∈ databases, ∀ t ∈ d.Tables, ∀ c ∈ t.Columns, c.JsonTag = c.Name) →
      databases.foldl (writeStructs title) out =
        out ++ concat ((allTables databases).map (specStructDecl title))
  | [], out, _ => by simp [concat, allTables]
  | d :: ds, out, h => by
    have ih := foldl_writeStructs_eq title ds (writeStructs title out d)
      (fun x hx => h x (List.mem_cons_of_mem _ hx))
    rw [List.foldl_cons, ih]
    unfold writeStructs
    rw [foldl_writeStruct_eq title d.Tables out (h d (List.mem_cons_self _ _))]
    simp only [allTables, List.map_append, concat_append, String.append_assoc]

theorem generateStructs_eq_spec (title : String → String) (databases : List Database)
    (h : ∀ d ∈ databases, ∀ t ∈ d.Tables, ∀ c ∈ t.Columns, c.JsonTag = c.Name) :
    generateStructs title databases = specStructs title databases := by
  unfold generateStructs specStructs
  exact foldl_writeStructs_eq title databases structHeader h

/-! ## Well-formed column lines -/

theorem getD_mem (parts : List String) (i : Nat) (h : i < parts.length) :
    parts.getD i "" ∈ parts := by
  rw [List.getD_eq_getElem _ _ h]
  exact List.getElem_mem h

/-- The strings accepted by `strconv.ParseBool` are those of `boolTokens`. -/
theorem parseBool_ne_none_iff (t : String) : parseBool t ≠ none ↔ t ∈ boolTokens := by
  unfold parseBool boolTokens
  simp only [List.mem_cons, List.mem_singleton, List.not_mem_nil, or_false]
  split_ifs with h1 h2
  · simp only [ne_eq, reduceCtorEq, not_false_eq_true, true_iff]
    tauto
  · simp only [ne_eq, reduceCtorEq, not_false_eq_true, true_iff]
    tauto
  · simp only [ne_eq, not_true_eq_false, false_iff]
    tauto

/-- The third guard of the loop body does not fire on a line with fewer than six
tokens or with a boolean as sixth token, and only on those. -/
theorem autoInc_guard_iff (parts : List String) (htok : ∀ t ∈ parts, trimSpace t = t ∧ t ≠ "") :
    ¬ (parseBool (autoIncOf parts) = none ∧ autoIncOf parts ≠ "") ↔
      (parts.length < 6 ∨ parts.getD 5 "" ∈ boolTokens) := by
  by_cases hlen : parts.length ≥ 6
  · have hmem := htok _ (getD_mem parts 5 (by omega))
    have ha : autoIncOf parts = parts.getD 5 "" := by
      unfold autoIncOf
      rw [if_pos hlen, hmem.1]
    rw [ha, ← parseBool_ne_none_iff]
    constructor
    · intro h
      right
      intro hn
      exact h ⟨hn, hmem.2⟩
    · rintro (h | h)
      · omega
      · exact fun hc => h hc.1
  · have ha : autoIncOf parts = "false" := by
      unfold autoIncOf
      rw [if_neg hlen]
    rw [ha]
    constructor
    · intro _
      left
      omega
    · intro _ hc
      exact absurd hc.1 (by decide)

theorem tokensOf_token (line : String) :
    ∀ t ∈ tokensOf line, trimSpace t = t ∧ t ≠ "" := by
  intro t ht
  exact ⟨trimSpace_token _ t ht, (fieldsFunc_token isSep _ t ht).1⟩

/-- A well-formed line whose name is not in `columnMap` is accepted: its
`Column` is appended and its name put in `columnMap`. -/
theorem columnBody_wellFormed (columnMap : List String) (line : String)
    (hw : WellFormedLine line) (hnew : nameOfLine line ∉ columnMap) :
    columnBody columnMap line =
      ColumnOutcome.accepted (columnOfLine line) (nameOfLine line :: columnMap) := by
  obtain ⟨hexit, hlen, hflag⟩ := hw
  have hname : trimSpace ((tokensOf line).getD 0 "") = (tokensOf line).getD 0 "" :=
    (tokensOf_token line _ (getD_zero_mem _ hlen)).1
  have hguard := (autoInc_guard_iff (tokensOf line) (tokensOf_token line)).mpr hflag
  unfold columnBody
  simp only
  rw [if_neg hexit]
  change columnOfParts columnMap (tokensOf line) = _
  rw [columnOfParts_eq, if_neg (by omega), hname,
    if_neg (by simpa [hasKey, nameOfLine] using hnew), if_neg hguard]
  rfl

/-- A line other than the sentinel is accepted exactly when it has at least
four tokens, a first token that is not in `columnMap`, and fewer than six tokens
or a boolean as sixth token. -/
theorem columnBody_accepted_iff (columnMap : List String) (line : String)
    (hexit : trimSpace line ≠ ".exit") :
    (∃ col columnMap', columnBody columnMap line = ColumnOutcome.accepted col columnMap') ↔
      (4 ≤ (tokensOf line).length ∧ nameOfLine line ∉ columnMap ∧
        ((tokensOf line).length < 6 ∨ (tokensOf line).getD 5 "" ∈ boolTokens)) := by
  constructor
  · rintro ⟨col, columnMap', h⟩
    obtain ⟨hlen, hcol, hnew, _, hguard⟩ := columnOfParts_accepted (columnBody_accepted h).2
    change 4 ≤ (tokensOf line).length at hlen
    change col = columnFields (tokensOf line) at hcol
    change ¬ (parseBool (autoIncOf (tokensOf line)) = none ∧ autoIncOf (tokensOf line) ≠ "")
      at hguard
    have hname : col.Name = nameOfLine line := by
      rw [hcol]
      exact (tokensOf_token line _ (getD_zero_mem _ hlen)).1
    refine ⟨hlen, ?_, (autoInc_guard_iff _ (tokensOf_token line)).mp hguard⟩
    rw [← hname]
    exact hnew
  · rintro ⟨hlen, hnew, hflag⟩
    exact ⟨_, _, columnBody_wellFormed columnMap line ⟨hexit, hlen, hflag⟩ hnew⟩

/-! ## The column prompt, line by line -/

/-- At the column prompt a well-formed line with a new name appends its
`Column`. -/
theorem step_column_accept (s : State) (line : String) (hp : s.phase = Phase.column)
    (hw : WellFormedLine line) (hnew : nameOfLine line ∉ s.columnMap) :
    step s line =
      { s with
        i := s.i + 1
        columnMap := nameOfLine line :: s.columnMap
        tableColumns := s.tableColumns ++ [columnOfLine line] } := by
  unfold step
  rw [hp]
  dsimp only
  unfold stepColumn
  rw [columnBody_wellFormed s.columnMap line hw hnew]
  simp only [hp]

/-- At the column prompt the sentinel appends the table to the database. -/
theorem step_column_exit (s : State) (hp : s.phase = Phase.column) :
    step s ".exit" =
      { s with
        i := s.i + 1
        db := { s.db with
          Tables := s.db.Tables ++ [{ Name := s.tableName, Columns := s.tableColumns }] }
        phase := Phase.table } := by
  have hb : columnBody s.columnMap ".exit" = ColumnOutcome.exit := rfl
  unfold step
  rw [hp]
  dsimp only
  unfold stepColumn
  rw [hb]

/-- A run of well-formed lines with pairwise distinct new names appends one
`Column` per line, in the order of the lines. -/
theorem foldl_step_columns :
    ∀ (lines : List String) (s : State), s.phase = Phase.column →
      (∀ line ∈ lines, WellFormedLine line) → (lines.map nameOfLine).Nodup →
      (∀ line ∈ lines, nameOfLine line ∉ s.columnMap) →
        (lines.foldl step s).phase = Phase.column ∧
        (lines.foldl step s).tableColumns = s.tableColumns ++ lines.map columnOfLine ∧
        (lines.foldl step s).db = s.db ∧
        (lines.foldl step s).tableName = s.tableName ∧
        (lines.foldl step s).databases = s.databases
  | [], s, hp, _, _, _ => by simp [hp]
  | line :: rest, s, hp, hw, hnd, hnew => by
    have hstep := step_column_accept s line hp (hw line (List.mem_cons_self _ _))
      (hnew line (List.mem_cons_self _ _))
    rw [List.map_cons, List.nodup_cons] at hnd
    have ih := foldl_step_columns rest (step s line) (by rw [hstep]; exact hp)
      (fun l hl => hw l (List.mem_cons_of_mem _ hl)) hnd.2
      (by
        intro l hl
        rw [hstep]
        dsimp only
        intro hmem
        rcases List.mem_cons.mp hmem with hmem | hmem
        · apply hnd.1
          rw [← hmem]
          exact List.mem_map_of_mem _ hl
        · exact hnew l (List.mem_cons_of_mem _ hl) hmem)
    rw [List.foldl_cons]
    obtain ⟨h1, h2, h3, h4, h5⟩ := ih
    refine ⟨h1, ?_, ?_, ?_, ?_⟩
    · rw [h2, hstep]
      simp
    · rw [h3, hstep]
    · rw [h4, hstep]
    · rw [h5, hstep]

/-- At the table prompt of a reachable state a name other than the sentinel
that no table of the database has opens the column prompt of a new table. -/
theorem step_table_accept (s : State) (input : String) (hr : Reachable s)
    (hp : s.phase = Phase.table) (hne : trimSpace input ≠ ".exit")
    (hnew : trimSpace input ∉ s.db.Tables.map Table.Name) :
    step s input =
      { s with
        tableMap := tableMapSet s.tableMap s.databaseName
          (trimSpace input :: tableMapGet s.tableMap s.databaseName)
        tableName := trimSpace input
        tableColumns := []
        columnMap := []
        i := 0
        phase := Phase.column } := by
  have hcur := (reachable_inv hr).current (Or.inl hp)
  have hkey : ¬ hasKey (tableMapGet s.tableMap s.databaseName) (trimSpace input) = true := by
    rw [hasKey_eq_true, hcur.tableMap, hp]
    simp only [not_or, not_and]
    exact ⟨hnew, fun hc => absurd hc (by decide)⟩
  unfold step
  rw [hp]
  dsimp only
  unfold stepTable
  simp only
  rw [if_neg hne, if_neg hkey]

/-- A table name, then well-formed column lines with pairwise distinct names,
then the sentinel: the table is appended to the database with one `Column` per
line in the order of the lines. -/
theorem table_collected (s : State) (name : String) (lines : List String)
    (hr : Reachable s) (hp : s.phase = Phase.table) (hne : trimSpace name ≠ ".exit")
    (hnew : trimSpace name ∉ s.db.Tables.map Table.Name)
    (hw : ∀ line ∈ lines, WellFormedLine line) (hnd : (lines.map nameOfLine).Nodup) :
    ((name :: (lines ++ [".exit"])).foldl step s).phase = Phase.table ∧
      ((name :: (lines ++ [".exit"])).foldl step s).db.Tables =
        s.db.Tables ++ [{ Name := trimSpace name, Columns := lines.map columnOfLine }] := by
  have h0 := step_table_accept s name hr hp hne hnew
  obtain ⟨h1, h2, h3, h4, _⟩ := foldl_step_columns lines (step s name) (by rw [h0])
    hw hnd (by
      intro l _
      rw [h0]
      simp)
  rw [List.foldl_cons, List.foldl_append, List.foldl_cons, List.foldl_nil,
    step_column_exit _ h1]
  dsimp only
  rw [h2, h3, h4, h0]
  simp

/-! ## The claims on the struct text and the column prompt -/

/-- C11: the struct text written by `generateFiles` for a database list of the
collector (and for every list whose columns have their name as JsonTag) is the
fixed header followed, for each table in database-then-table order, by one
declaration `type <Title(table name)> struct` with one field line per column in
column order: the title-cased column name, the column's derived target type,
and the raw column name as json annotation; for the collector's lists that
target type is the vocabulary lookup of the declared type. -/
theorem C11_struct_text (title : String → String) :
    (∀ (fuel : Nat) (stdin : List String) (dbs : List Database),
      main fuel stdin = some dbs →
        generateStructs title dbs = specStructs title dbs ∧
          ∀ d ∈ dbs, ∀ t ∈ d.Tables, ∀ c ∈ t.Columns,
            c.JsonTag = c.Name ∧ c.GoType = specTargetType c.Typ) ∧
    (∀ dbs : List Database,
      (∀ d ∈ dbs, ∀ t ∈ d.Tables, ∀ c ∈ t.Columns, c.JsonTag = c.Name) →
        generateStructs title dbs = specStructs title dbs) ∧
    (∀ dbs : List Database, specStructs title dbs =
      "package structs\n\nimport (\n\t\"time\"\n)\n\n" ++
        concat ((allTables dbs).map (fun table =>
          "type " ++ title table.Name ++ " struct \x7b\n" ++
            concat (table.Columns.map (fun col =>
              "\t" ++ title col.Name ++ "\t" ++ col.GoType ++ " \x60json:\"" ++ col.Name ++
                "\"\x60\n")) ++
            "\x7d\n\n"))) ∧
    (∀ (db : Database) (rest : List Database),
      allTables (db :: rest) = db.Tables ++ allTables rest) := by
  refine ⟨?_, ?_, fun dbs => rfl, fun db rest => rfl⟩
  · intro fuel stdin dbs h
    have hok := main_columnsOK h
    refine ⟨generateStructs_eq_spec title dbs (fun d hd t ht c hc => (hok d hd t ht c hc).jsonTag),
      ?_⟩
    intro d hd t ht c hc
    refine ⟨(hok d hd t ht c hc).jsonTag, ?_⟩
    rw [(hok d hd t ht c hc).goType]
    exact goTypeOf_eq_spec _
  · intro dbs h
    exact generateStructs_eq_spec title dbs h

/-- C11 on the input `shop`, `items`, `id INT null not`, `name VARCHAR 50 not`,
`.exit`, `logs`, `.exit`, `.exit`, `.exit`, with the title caser of ASCII
words. -/
theorem C11_struct_text_witness :
    main 10 ["shop", "items", "id INT null not", "name VARCHAR 50 not", ".exit", "logs",
        ".exit", ".exit", ".exit"] =
      some [{ Name := "shop", Tables :=
        [{ Name := "items", Columns :=
            [{ Typ := "INT", Name := "id", Length := "", Null := "not", Key := "",
               AutoInc := false, GoType := "int", JsonTag := "id" },
             { Typ := "VARCHAR", Name := "name", Length := "50", Null := "not", Key := "",
               AutoInc := false, GoType := "string", JsonTag := "name" }] },
         { Name := "logs", Columns := [] }] }] ∧
    generateStructs asciiTitle [{ Name := "shop", Tables :=
        [{ Name := "items", Columns :=
            [{ Typ := "INT", Name := "id", Length := "", Null := "not", Key := "",
               AutoInc := false, GoType := "int", JsonTag := "id" },
             { Typ := "VARCHAR", Name := "name", Length := "50", Null := "not", Key := "",
               AutoInc := false, GoType := "string", JsonTag := "name" }] },
         { Name := "logs", Columns := [] }] }] =
      "package structs\n\nimport (\n\t\"time\"\n)\n\n" ++
        "type Items struct \x7b\n" ++
        "\tId\tint \x60json:\"id\"\x60\n" ++
        "\tName\tstring \x60json:\"name\"\x60\n" ++
        "\x7d\n\n" ++
        "type Logs struct \x7b\n\x7d\n\n" ∧
    generateStructs asciiTitle [{ Name := "shop", Tables :=
        [{ Name := "items", Columns :=
            [{ Typ := "INT", Name := "id", Length := "", Null := "not", Key := "",
               AutoInc := false, GoType := "int", JsonTag := "id" },
             { Typ := "VARCHAR", Name := "name", Length := "50", Null := "not", Key := "",
               AutoInc := false, GoType := "string", JsonTag := "name" }] },
         { Name := "logs", Columns := [] }] }] =
      specStructs asciiTitle [{ Name := "shop", Tables :=
        [{ Name := "items", Columns :=
            [{ Typ := "INT", Name := "id", Length := "", Null := "not", Key := "",
               AutoInc := false, GoType := "int", JsonTag := "id" },
             { Typ := "VARCHAR", Name := "name", Length := "50", Null := "not", Key := "",
               AutoInc := false, GoType := "string", JsonTag := "name" }] },
         { Name := "logs", Columns := [] }] }] :=
  ⟨by decide, by decide,
   ((C11_struct_text asciiTitle).1 10
     ["shop", "items", "id INT null not", "name VARCHAR 50 not", ".exit", "logs",
       ".exit", ".exit", ".exit"] _ (by decide)).1⟩

/-- C12: at the table prompt, a new table name followed by well-formed column
lines with pairwise distinct column names and by `.exit` appends to the
database a table with exactly one Column per line, in the order the lines were
entered; the name of each Column is the first token of its line. -/
theorem C12_columns_in_line_order (s : State) (name : String) (lines : List String)
    (hr : Reachable s) (hp : s.phase = Phase.table) (hne : trimSpace name ≠ ".exit")
    (hnew : trimSpace name ∉ s.db.Tables.map Table.Name)
    (hw : ∀ line ∈ lines, WellFormedLine line) (hnd : (lines.map nameOfLine).Nodup) :
    ((name :: (lines ++ [".exit"])).foldl step s).phase = Phase.table ∧
      ((name :: (lines ++ [".exit"])).foldl step s).db.Tables =
        s.db.Tables ++ [{ Name := trimSpace name, Columns := lines.map columnOfLine }] ∧
      (lines.map columnOfLine).length = lines.length ∧
      (lines.map columnOfLine).map Column.Name = lines.map nameOfLine := by
  obtain ⟨h1, h2⟩ := table_collected s name lines hr hp hne hnew hw hnd
  refine ⟨h1, h2, by simp, ?_⟩
  rw [List.map_map]
  apply List.map_congr_left
  intro line hl
  exact (tokensOf_token line _ (getD_zero_mem _ (hw line hl).2.1)).1

/-- C12 on the table `items` of database `shop` with the lines
`id INT null not PRIMARY true`, `name VARCHAR 50 not` and
`price FLOAT null null`. -/
theorem C12_columns_in_line_order_witness :
    ((["items", "id INT null not PRIMARY true", "name VARCHAR 50 not",
        "price FLOAT null null", ".exit"].foldl step (["shop"].foldl step init)).phase =
        Phase.table) ∧
      (["items", "id INT null not PRIMARY true", "name VARCHAR 50 not",
        "price FLOAT null null", ".exit"].foldl step (["shop"].foldl step init)).db.Tables =
        (["shop"].foldl step init).db.Tables ++
          [{ Name := trimSpace "items",
             Columns := ["id INT null not PRIMARY true", "name VARCHAR 50 not",
               "price FLOAT null null"].map columnOfLine }] ∧
      (["id INT null not PRIMARY true", "name VARCHAR 50 not",
        "price FLOAT null null"].map columnOfLine).length = 3 ∧
      (["id INT null not PRIMARY true", "name VARCHAR 50 not",
        "price FLOAT null null"].map columnOfLine).map Column.Name =
        ["id INT null not PRIMARY true", "name VARCHAR 50 not",
          "price FLOAT null null"].map nameOfLine ∧
      ["id INT null not PRIMARY true", "name VARCHAR 50 not",
        "price FLOAT null null"].map columnOfLine =
        [{ Typ := "INT", Name := "id", Length := "", Null := "not", Key := "PRIMARY",
           AutoInc := true, GoType := "int", JsonTag := "id" },
         { Typ := "VARCHAR", Name := "name", Length := "50", Null := "not", Key := "",
           AutoInc := false, GoType := "string", JsonTag := "name" },
         { Typ := "FLOAT", Name := "price", Length := "", Null := "null", Key := "",
           AutoInc := false, GoType := "float64", JsonTag := "price" }] :=
  have h := C12_columns_in_line_order (["shop"].foldl step init) "items"
    ["id INT null not PRIMARY true", "name VARCHAR 50 not", "price FLOAT null null"]
    ⟨["shop"], rfl⟩ (by decide) (by decide) (by decide) (by decide) (by decide)
  ⟨h.1, h.2.1, h.2.2.1, h.2.2.2, by decide⟩

/-- C13: the input `employees`, `staff`, `id INT null not PRIMARY true`, `.exit`,
`.exit`, `.exit` yields one database `employees` with one table `staff` with one
column; for every title caser that sends `staff` to `Staff` and `id` to `Id`
the struct text is the header and the declaration of `Staff` with the single
field `Id` of type int annotated json `id`, and for every upper-casing that
leaves `INT` unchanged the SQL text is the database block followed by the
statement `CREATE TABLE staff (` / tab `id INT NOT NULL PRIMARY KEY
AUTO_INCREMENT` / `);`. -/
theorem C13_employees_staff_example (title toUpper : String → String)
    (hstaff : title "staff" = "Staff") (hid : title "id" = "Id")
    (hint : toUpper "INT" = "INT") :
    main 7 ["employees", "staff", "id INT null not PRIMARY true", ".exit", ".exit", ".exit"] =
      some [{ Name := "employees", Tables := [{ Name := "staff", Columns :=
        [{ Typ := "INT", Name := "id", Length := "", Null := "not", Key := "PRIMARY",
           AutoInc := true, GoType := "int", JsonTag := "id" }] }] }] ∧
    generateStructs title [{ Name := "employees", Tables := [{ Name := "staff", Columns :=
        [{ Typ := "INT", Name := "id", Length := "", Null := "not", Key := "PRIMARY",
           AutoInc := true, GoType := "int", JsonTag := "id" }] }] }] =
      "package structs\n\nimport (\n\t\"time\"\n)\n\n" ++
        "type Staff struct \x7b\n\tId\tint \x60json:\"id\"\x60\n\x7d\n\n" ∧
    generateSQL toUpper [{ Name := "employees", Tables := [{ Name := "staff", Columns :=
        [{ Typ := "INT", Name := "id", Length := "", Null := "not", Key := "PRIMARY",
           AutoInc := true, GoType := "int", JsonTag := "id" }] }] }] =
      "CREATE DATABASE IF NOT EXISTS employees;\nUSE employees;\n\n" ++
        "CREATE TABLE staff (\n\tid INT NOT NULL PRIMARY KEY AUTO_INCREMENT\n);" ++ "\n\n" := by
  refine ⟨by decide, ?_, ?_⟩
  · simp only [generateStructs, writeStructs, writeStruct, writeField, List.foldl_cons,
      List.foldl_nil, hstaff, hid]
    decide
  · simp only [generateSQL, writeDatabase, writeTable, writeColumns, columnClause,
      List.foldl_cons, List.foldl_nil, hint]
    decide

/-- C13 with the title caser of ASCII words and the upper-casing of ASCII
text. -/
theorem C13_employees_staff_example_witness :
    (asciiTitle "staff" = "Staff" ∧ asciiTitle "id" = "Id" ∧ asciiToUpper "INT" = "INT") ∧
    generateStructs asciiTitle [{ Name := "employees", Tables := [{ Name := "staff", Columns :=
        [{ Typ := "INT", Name := "id", Length := "", Null := "not", Key := "PRIMARY",
           AutoInc := true, GoType := "int", JsonTag := "id" }] }] }] =
      "package structs\n\nimport (\n\t\"time\"\n)\n\n" ++
        "type Staff struct \x7b\n\tId\tint \x60json:\"id\"\x60\n\x7d\n\n" ∧
    generateSQL asciiToUpper [{ Name := "employees", Tables := [{ Name := "staff", Columns :=
        [{ Typ := "INT", Name := "id", Length := "", Null := "not", Key := "PRIMARY",
           AutoInc := true, GoType := "int", JsonTag := "id" }] }] }] =
      "CREATE DATABASE IF NOT EXISTS employees;\nUSE employees;\n\n" ++
        "CREATE TABLE staff (\n\tid INT NOT NULL PRIMARY KEY AUTO_INCREMENT\n);" ++ "\n\n" :=
  ⟨by decide,
   (C13_employees_staff_example asciiTitle asciiToUpper (by decide) (by decide) (by decide)).2⟩

/-- C14: for an accepted column line with exactly the four tokens `n t l q`,
where neither `l` nor `q` is `null`, the clause written for its Column is the
tab followed by the fragment `n`, a space, the upper-cased `t`, `l` in
parentheses and ` NOT NULL`, with nothing after it. -/
theorem C14_four_token_fragment (toUpper : String → String)
    (columnMap columnMap' : List String) (line : String) (col : Column) (n t l q : String)
    (htok : fieldsFunc isSep (trimSpace line) = [n, t, l, q]) (hl : l ≠ "null")
    (hq : q ≠ "null")
    (hacc : columnBody columnMap line = ColumnOutcome.accepted col columnMap') :
    columnClause toUpper col = "\t" ++ (n ++ " " ++ toUpper t ++ "(" ++ l ++ ")" ++ " NOT NULL") := by
  have hmem : ∀ x ∈ [n, t, l, q], trimSpace x = x ∧ x ≠ "" := by
    intro x hx
    rw [← htok] at hx
    exact tokensOf_token line x hx
  have hn := (hmem n (by simp)).1
  have ht := (hmem t (by simp)).1
  have hl' := hmem l (by simp)
  have hq' := (hmem q (by simp)).1
  obtain ⟨_, hcol, _, _, _⟩ := columnOfParts_accepted (columnBody_accepted hacc).2
  rw [htok] at hcol
  have hName : col.Name = n := by rw [hcol]; simp [columnFields, hn]
  have hTyp : col.Typ = t := by rw [hcol]; simp [columnFields, ht]
  have hLength : col.Length = l := by rw [hcol]; simp [columnFields, hl'.1, hl]
  have hNull : col.Null = q := by rw [hcol]; simp [columnFields, hq']
  have hKey : col.Key = "" := by rw [hcol]; simp [columnFields]
  have k1 : ¬ (("" : String) = "PRIMARY") := by decide
  have k2 : ¬ (("" : String) = "UNIQUE") := by decide
  have k3 : ¬ (("" : String) = "FOREIGN") := by decide
  unfold columnClause
  simp only [hName, hTyp, hLength, hNull, hKey, if_neg hq, if_pos hl'.2, if_neg k1, if_neg k2,
    if_neg k3, String.append_assoc, String.append_empty]

/-- C14 on the line `name VARCHAR 50 not`: the clause is the tab followed by
`name VARCHAR(50) NOT NULL`. -/
theorem C14_four_token_fragment_witness :
    columnBody [] "name VARCHAR 50 not" =
        ColumnOutcome.accepted
          { Typ := "VARCHAR", Name := "name", Length := "50", Null := "not", Key := "",
            AutoInc := false, GoType := "string", JsonTag := "name" } ["name"] ∧
      columnClause asciiToUpper
          { Typ := "VARCHAR", Name := "name", Length := "50", Null := "not", Key := "",
            AutoInc := false, GoType := "string", JsonTag := "name" } =
        "\tname VARCHAR(50) NOT NULL" ∧
      columnClause asciiToUpper
          { Typ := "VARCHAR", Name := "name", Length := "50", Null := "not", Key := "",
            AutoInc := false, GoType := "string", JsonTag := "name" } =
        "\t" ++ ("name" ++ " " ++ asciiToUpper "VARCHAR" ++ "(" ++ "50" ++ ")" ++ " NOT NULL") :=
  ⟨by decide, by decide,
   C14_four_token_fragment asciiToUpper [] ["name"] "name VARCHAR 50 not"
     { Typ := "VARCHAR", Name := "name", Length := "50", Null := "not", Key := "",
       AutoInc := false, GoType := "string", JsonTag := "name" }
     "name" "VARCHAR" "50" "not" (by decide) (by decide) (by decide) (by decide)⟩

/-- C15: at the column prompt of any state, a line other than the sentinel with
fewer than four tokens is rejected for insufficient parameters, and the step
changes nothing but the prompt counter `i`: no column is appended and
`columnMap` is the same. -/
theorem C15_too_few_tokens_rejected (s : State) (line : String)
    (hp : s.phase = Phase.column) (hne : trimSpace line ≠ ".exit")
    (hlen : (fieldsFunc isSep (trimSpace line)).length < 4) :
    columnBody s.columnMap line =
        ColumnOutcome.rejected ColumnError.insufficient s.columnMap ∧
      (step s line).tableColumns = s.tableColumns ∧
      (step s line).columnMap = s.columnMap ∧
      step s line = { s with i := s.i + 1 } := by
  have hb : columnBody s.columnMap line =
      ColumnOutcome.rejected ColumnError.insufficient s.columnMap := by
    unfold columnBody
    simp only
    rw [if_neg hne, columnOfParts_eq, if_pos hlen]
  have hstep : step s line = { s with i := s.i + 1 } := by
    unfold step
    rw [hp]
    dsimp only
    unfold stepColumn
    rw [hb]
    simp only [hp]
  refine ⟨hb, ?_, ?_, hstep⟩
  · rw [hstep]
  · rw [hstep]

/-- C15 on the line `id INT, null` (three tokens) at the column prompt of table
`items`, after the column `id` was accepted. -/
theorem C15_too_few_tokens_rejected_witness :
    (fieldsFunc isSep (trimSpace "id INT, null")).length = 3 ∧
      columnBody (["shop", "items", "id INT null not"].foldl step init).columnMap
          "id INT, null" =
        ColumnOutcome.rejected ColumnError.insufficient
          (["shop", "items", "id INT null not"].foldl step init).columnMap ∧
      (step (["shop", "items", "id INT null not"].foldl step init)
          "id INT, null").tableColumns =
        (["shop", "items", "id INT null not"].foldl step init).tableColumns ∧
      (step (["shop", "items", "id INT null not"].foldl step init) "id INT, null").columnMap =
        (["shop", "items", "id INT null not"].foldl step init).columnMap ∧
      step (["shop", "items", "id INT null not"].foldl step init) "id INT, null" =
        { (["shop", "items", "id INT null not"].foldl step init) with
          i := (["shop", "items", "id INT null not"].foldl step init).i + 1 } :=
  ⟨by decide,
   C15_too_few_tokens_rejected (["shop", "items", "id INT null not"].foldl step init)
     "id INT, null" (by decide) (by decide) (by decide)⟩

/-- The declaration and the statement written for a table with no column. -/
theorem writeStruct_nil (title : String → String) (out name : String) :
    writeStruct title out { Name := name, Columns := [] } =
      out ++ ("type " ++ title name ++ " struct \x7b\n\x7d\n\n") := by
  have hsplit : (" struct \x7b\n\x7d\n\n" : String) = " struct \x7b\n" ++ "\x7d\n\n" := by decide
  simp only [writeStruct, List.foldl_nil, hsplit, String.append_assoc]

theorem writeTable_nil (toUpper : String → String) (out name : String) :
    writeTable toUpper out { Name := name, Columns := [] } =
      out ++ ("CREATE TABLE " ++ name ++ " (\n);\n\n") := by
  have hsplit : (" (\n);\n\n" : String) = " (\n" ++ ");\n\n" := by decide
  simp only [writeTable, writeColumns, hsplit, String.append_assoc]

/-- C16: a table name followed at once by `.exit` at the column prompt is kept
as a table with no column; for such a table the struct text written is
`type <Title(name)> struct` with an empty body (opening brace, newline, closing
brace, blank line) and the SQL text written is `CREATE TABLE <name> (`, newline,
`);`, blank line, with no column clause and no comma. -/
theorem C16_zero_column_table (title toUpper : String → String) :
    (∀ out name : String,
      writeStruct title out { Name := name, Columns := [] } =
        out ++ ("type " ++ title name ++ " struct \x7b\n\x7d\n\n")) ∧
    (∀ out name : String,
      writeTable toUpper out { Name := name, Columns := [] } =
        out ++ ("CREATE TABLE " ++ name ++ " (\n);\n\n")) ∧
    (∀ (s : State) (name : String), Reachable s → s.phase = Phase.table →
      trimSpace name ≠ ".exit" → trimSpace name ∉ s.db.Tables.map Table.Name →
        ([name, ".exit"].foldl step s).phase = Phase.table ∧
          ([name, ".exit"].foldl step s).db.Tables =
            s.db.Tables ++ [{ Name := trimSpace name, Columns := [] }]) := by
  refine ⟨writeStruct_nil title, writeTable_nil toUpper, ?_⟩
  intro s name hr hp hne hnew
  exact table_collected s name [] hr hp hne hnew (by simp) (by simp)

/-- C16 on the input `shop`, `logs`, `.exit`, `.exit`, `.exit`. -/
theorem C16_zero_column_table_witness :
    main 6 ["shop", "logs", ".exit", ".exit", ".exit"] =
        some [{ Name := "shop", Tables := [{ Name := "logs", Columns := [] }] }] ∧
      generateStructs asciiTitle [{ Name := "shop", Tables := [{ Name := "logs", Columns := [] }] }] =
        "package structs\n\nimport (\n\t\"time\"\n)\n\n" ++ "type Logs struct \x7b\n\x7d\n\n" ∧
      generateSQL asciiToUpper [{ Name := "shop", Tables := [{ Name := "logs", Columns := [] }] }] =
        "CREATE DATABASE IF NOT EXISTS shop;\nUSE shop;\n\n" ++ "CREATE TABLE logs (\n);\n\n" ∧
      (([("logs" : String), ".exit"].foldl step (["shop"].foldl step init)).phase = Phase.table ∧
        ([("logs" : String), ".exit"].foldl step (["shop"].foldl step init)).db.Tables =
          (["shop"].foldl step init).db.Tables ++
            [{ Name := trimSpace "logs", Columns := [] }]) :=
  ⟨by decide, by decide, by decide,
   (C16_zero_column_table asciiTitle asciiToUpper).2.2 (["shop"].foldl step init) "logs"
     ⟨["shop"], rfl⟩ (by decide) (by decide) (by decide)⟩

/-- C17: every column handed to `generateFiles` has a non-empty name with no
white space and no comma in it; more generally every token of the tokenizer of
the column prompt is non-empty and has no white space and no comma in it. -/
theorem C17_column_names_are_tokens :
    (∀ (fuel : Nat) (stdin : List String) (dbs : List Database),
      main fuel stdin = some dbs →
        ∀ d ∈ dbs, ∀ t ∈ d.Tables, ∀ c ∈ t.Columns,
          c.Name ≠ "" ∧ ∀ ch ∈ c.Name.data, isSpace ch = false ∧ ch ≠ ',') ∧
    (∀ (line : String), ∀ t ∈ fieldsFunc isSep line,
      t ≠ "" ∧ ∀ ch ∈ t.data, isSpace ch = false ∧ ch ≠ ',') := by
  have hsep : ∀ ch : Char, isSep ch = false → isSpace ch = false ∧ ch ≠ ',' := by
    intro ch h
    unfold isSep at h
    simp only [Bool.or_eq_false_iff, decide_eq_false_iff_not] at h
    exact h
  constructor
  · intro fuel stdin dbs h d hd t ht c hc
    have hok := main_columnsOK h d hd t ht c hc
    exact ⟨hok.nonempty, fun ch hch => hsep ch (hok.noSep ch hch)⟩
  · intro line t ht
    have htok := fieldsFunc_token isSep line t ht
    exact ⟨htok.1, fun ch hch => hsep ch (htok.2 ch hch)⟩

/-- C17 on the input `shop`, `items`, ` ,id,,INT , null not `, `.exit`,
`.exit`, `.exit`: the column is named `id`. -/
theorem C17_column_names_are_tokens_witness :
    main 7 ["shop", "items", " ,id,,INT , null not ", ".exit", ".exit", ".exit"] =
        some [{ Name := "shop", Tables := [{ Name := "items", Columns :=
          [{ Typ := "INT", Name := "id", Length := "", Null := "not", Key := "",
             AutoInc := false, GoType := "int", JsonTag := "id" }] }] }] ∧
      (∀ d ∈ [({ Name := "shop", Tables := [{ Name := "items", Columns :=
          [{ Typ := "INT", Name := "id", Length := "", Null := "not", Key := "",
             AutoInc := false, GoType := "int", JsonTag := "id" }] }] } : Database)],
        ∀ t ∈ d.Tables, ∀ c ∈ t.Columns,
          c.Name ≠ "" ∧ ∀ ch ∈ c.Name.data, isSpace ch = false ∧ ch ≠ ',') :=
  ⟨by decide,
   C17_column_names_are_tokens.1 7
     ["shop", "items", " ,id,,INT , null not ", ".exit", ".exit", ".exit"] _ (by decide)⟩

/-- Tokens after the sixth are not read by the loop body. -/
theorem columnOfParts_extra (columnMap : List String) (t0 t1 t2 t3 t4 t5 : String)
    (extra : List String) :
    columnOfParts columnMap (t0 :: t1 :: t2 :: t3 :: t4 :: t5 :: extra) =
      columnOfParts columnMap [t0, t1, t2, t3, t4, t5] := by
  have ha : autoIncOf (t0 :: t1 :: t2 :: t3 :: t4 :: t5 :: extra) =
      autoIncOf [t0, t1, t2, t3, t4, t5] := by
    simp [autoIncOf]
  have hc : columnFields (t0 :: t1 :: t2 :: t3 :: t4 :: t5 :: extra) =
      columnFields [t0, t1, t2, t3, t4, t5] := by
    simp [columnFields, ha]
  rw [columnOfParts_eq, columnOfParts_eq, ha, hc]
  simp

/-- The step at the column prompt appends the `Column` of an accepted line and
leaves the column list alone otherwise. -/
theorem step_column_tableColumns (s : State) (line : String) (hp : s.phase = Phase.column) :
    (step s line).tableColumns =
      match columnBody s.columnMap line with
      | ColumnOutcome.accepted col _ => s.tableColumns ++ [col]
      | _ => s.tableColumns := by
  unfold step
  rw [hp]
  dsimp only
  unfold stepColumn
  cases columnBody s.columnMap line <;> rfl

/-- What the column prompt accepts, in terms of `columnMap`: a line other than
the sentinel appends a Column if and only if it has at least four tokens, its
first token is not in `columnMap`, and it has fewer than six tokens or a sixth
token that `strconv.ParseBool` accepts; otherwise the column list is unchanged;
and a line with tokens after the sixth has the same outcome as the line of its
first six tokens. -/
theorem column_line_accepted_iff (s : State) (line : String)
    (hp : s.phase = Phase.column) (hne : trimSpace line ≠ ".exit") :
    ((∃ col : Column, (step s line).tableColumns = s.tableColumns ++ [col]) ↔
      (4 ≤ (fieldsFunc isSep (trimSpace line)).length ∧
        (fieldsFunc isSep (trimSpace line)).getD 0 "" ∉ s.columnMap ∧
        ((fieldsFunc isSep (trimSpace line)).length < 6 ∨
          (fieldsFunc isSep (trimSpace line)).getD 5 "" ∈
            ["1", "t", "T", "TRUE", "true", "True", "0", "f", "F", "FALSE", "false",
              "False"]))) ∧
    ((¬ ∃ col : Column, (step s line).tableColumns = s.tableColumns ++ [col]) →
      (step s line).tableColumns = s.tableColumns) ∧
    (∀ (line' : String) (t0 t1 t2 t3 t4 t5 : String) (extra : List String),
      fieldsFunc isSep (trimSpace line) = t0 :: t1 :: t2 :: t3 :: t4 :: t5 :: extra →
      fieldsFunc isSep (trimSpace line') = [t0, t1, t2, t3, t4, t5] →
        columnBody s.columnMap line = columnBody s.columnMap line' ∧
          step s line = step s line') := by
  have hiff := columnBody_accepted_iff s.columnMap line hne
  have htc := step_column_tableColumns s line hp
  refine ⟨?_, ?_, ?_⟩
  · refine Iff.trans ?_ hiff
    cases hb : columnBody s.columnMap line with
    | exit => exact absurd (columnBody_exit hb) hne
    | rejected err cm =>
      rw [hb] at htc
      constructor
      · rintro ⟨col, hcol⟩
        rw [htc] at hcol
        have := congrArg List.length hcol
        simp at this
      · rintro ⟨col, cm', h⟩
        exact ColumnOutcome.noConfusion h
    | accepted col cm =>
      rw [hb] at htc
      exact ⟨fun _ => ⟨col, cm, rfl⟩, fun _ => ⟨col, htc⟩⟩
  · intro hno
    cases hb : columnBody s.columnMap line with
    | exit => exact absurd (columnBody_exit hb) hne
    | rejected err cm =>
      rw [hb] at htc
      exact htc
    | accepted col cm =>
      rw [hb] at htc
      exact absurd ⟨col, htc⟩ hno
  · intro line' t0 t1 t2 t3 t4 t5 extra htok htok'
    have hbody : columnBody s.columnMap line = columnBody s.columnMap line' := by
      rw [columnBody_of_tokens s.columnMap line t0 t1 _ htok,
        columnBody_of_tokens s.columnMap line' t0 t1 _ htok', columnOfParts_extra]
    refine ⟨hbody, ?_⟩
    unfold step
    rw [hp]
    dsimp only
    unfold stepColumn
    rw [hbody]

/-- C18 (the code departs from the claim, by the defect of C1): after the line
`id INT null not PRIMARY maybe` was rejected at the column prompt of the new
table `items`, the table has no column, so `id` is not the name of a column of
this table; the line `id INT null not PRIMARY true` has six tokens and the
boolean `true` as sixth token; yet it appends no column, because the rejected
line left `id` in `columnMap`. On the state before the rejected line the same
line appends the column `id`. -/
theorem C18_unused_name_rejected :
    (["shop", "items", "id INT null not PRIMARY maybe"].foldl step init).phase =
      Phase.column ∧
    (["shop", "items", "id INT null not PRIMARY maybe"].foldl step init).tableColumns = [] ∧
    trimSpace "id INT null not PRIMARY true" ≠ ".exit" ∧
    fieldsFunc isSep (trimSpace "id INT null not PRIMARY true") =
      ["id", "INT", "null", "not", "PRIMARY", "true"] ∧
    "id" ∉ (["shop", "items", "id INT null not PRIMARY maybe"].foldl step init).tableColumns.map
      Column.Name ∧
    parseBool "true" = some true ∧
    (step (["shop", "items", "id INT null not PRIMARY maybe"].foldl step init)
      "id INT null not PRIMARY true").tableColumns = [] ∧
    (["shop", "items", "id INT null not PRIMARY maybe"].foldl step init).columnMap = ["id"] ∧
    (step (["shop", "items"].foldl step init) "id INT null not PRIMARY true").tableColumns =
      [{ Typ := "INT", Name := "id", Length := "", Null := "not", Key := "PRIMARY",
         AutoInc := true, GoType := "int", JsonTag := "id" }] := by
  decide

/-! ### The type names of the declarations -/

theorem foldl_typeNames_tables (title : String → String) :
    ∀ (tables : List Table) (names : List String),
      tables.foldl (fun names table => names ++ [title table.Name]) names =
        names ++ tables.map (fun t => title t.Name)
  | [], names => by simp
  | t :: ts, names => by
    rw [List.foldl_cons, foldl_typeNames_tables title ts]
    simp

theorem foldl_typeNames_databases (title : String → String) :
    ∀ (databases : List Database) (names : List String),
      databases.foldl
          (fun names db =>
            db.Tables.foldl (fun names table => names ++ [title table.Name]) names) names =
        names ++ (allTables databases).map (fun t => title t.Name)
  | [], names => by simp [allTables]
  | d :: ds, names => by
    rw [List.foldl_cons, foldl_typeNames_databases title ds, foldl_typeNames_tables]
    simp [allTables]

/-- The declared type names are the title-cased table names, in
database-then-table order. -/
theorem declaredTypeNames_eq (title : String → String) (databases : List Database) :
    declaredTypeNames title databases = (allTables databases).map (fun t => title t.Name) := by
  unfold declaredTypeNames
  rw [foldl_typeNames_databases]
  simp

/-- C19, as stated, fails: the collector accepts the table name `users` in the
databases `a` and `b`, and the two declarations written have the same type name
whatever the title caser is; within one database the table names `staff` and
`Staff` are both accepted and both give the type name `Staff`. -/
theorem C19_type_names_counterexample :
    main 10 ["a", "users", ".exit", ".exit", "b", "users", ".exit", ".exit", ".exit"] =
        some [{ Name := "a", Tables := [{ Name := "users", Columns := [] }] },
              { Name := "b", Tables := [{ Name := "users", Columns := [] }] }] ∧
      declaredTypeNames asciiTitle
          [{ Name := "a", Tables := [{ Name := "users", Columns := [] }] },
           { Name := "b", Tables := [{ Name := "users", Columns := [] }] }] =
        ["Users", "Users"] ∧
      ¬ (∀ (title : String → String) (fuel : Nat) (stdin : List String) (dbs : List Database),
          main fuel stdin = some dbs → (declaredTypeNames title dbs).Nodup) ∧
      main 8 ["shop", "staff", ".exit", "Staff", ".exit", ".exit", ".exit"] =
        some [{ Name := "shop", Tables :=
          [{ Name := "staff", Columns := [] }, { Name := "Staff", Columns := [] }] }] ∧
      declaredTypeNames asciiTitle
          [{ Name := "shop", Tables :=
            [{ Name := "staff", Columns := [] }, { Name := "Staff", Columns := [] }] }] =
        ["Staff", "Staff"] := by
  refine ⟨by decide, by decide, ?_, by decide, by decide⟩
  intro hall
  have h := hall asciiTitle 10
    ["a", "users", ".exit", ".exit", "b", "users", ".exit", ".exit", ".exit"]
    [{ Name := "a", Tables := [{ Name := "users", Columns := [] }] },
     { Name := "b", Tables := [{ Name := "users", Columns := [] }] }] (by decide)
  exact absurd h (by decide)

/-- C19, amended: for every schema the collector can produce, the type names of
the declarations written are the title-cased table names in
database-then-table order; within each database they are pairwise distinct
whenever the title caser sends no two table names of that database to the same
text. (Tables of different databases can have the same type name.) -/
theorem C19_type_names_per_database (title : String → String) (fuel : Nat)
    (stdin : List String) (dbs : List Database) (h : main fuel stdin = some dbs) :
    declaredTypeNames title dbs = (allTables dbs).map (fun t => title t.Name) ∧
      ∀ d ∈ dbs,
        (∀ a ∈ d.Tables, ∀ b ∈ d.Tables, title a.Name = title b.Name → a.Name = b.Name) →
          (d.Tables.map (fun t => title t.Name)).Nodup := by
  refine ⟨declaredTypeNames_eq title dbs, ?_⟩
  intro d hd hinj
  obtain ⟨s', hinv, _, hdbs⟩ := main_inv h
  rw [← hdbs] at hd
  have hnd := (hinv.tables d hd).nodup
  have hmap : d.Tables.map (fun t => title t.Name) = (d.Tables.map Table.Name).map title := by
    rw [List.map_map]
    rfl
  rw [hmap]
  apply List.Nodup.map_on _ hnd
  intro x hx y hy hxy
  obtain ⟨a, ha, rfl⟩ := List.mem_map.mp hx
  obtain ⟨b, hb, rfl⟩ := List.mem_map.mp hy
  exact hinj a ha b hb hxy

/-- C19 amended, on the input `shop`, `users`, `.exit`, `orders`, `.exit`,
`.exit`, `.exit`: the type names are `Users` and `Orders`. -/
theorem C19_type_names_per_database_witness :
    main 8 ["shop", "users", ".exit", "orders", ".exit", ".exit", ".exit"] =
        some [{ Name := "shop", Tables :=
          [{ Name := "users", Columns := [] }, { Name := "orders", Columns := [] }] }] ∧
      declaredTypeNames asciiTitle
          [{ Name := "shop", Tables :=
            [{ Name := "users", Columns := [] }, { Name := "orders", Columns := [] }] }] =
        ["Users", "Orders"] ∧
      (["Users", "Orders"] : List String).Nodup :=
  have h := C19_type_names_per_database asciiTitle 8
    ["shop", "users", ".exit", "orders", ".exit", ".exit", ".exit"]
    [{ Name := "shop", Tables :=
      [{ Name := "users", Columns := [] }, { Name := "orders", Columns := [] }] }] (by decide)
  ⟨by decide, by decide,
   h.2 { Name := "shop", Tables :=
      [{ Name := "users", Columns := [] }, { Name := "orders", Columns := [] }] }
     (List.mem_singleton.mpr rfl) (by decide)⟩

end GoSqlSchema
